import Mathlib

/-!
Verification development for the LandingPDFSnap repository (URL → PDF job
controller).  The definitions below are a shallow embedding of the job data
model (`shared/schema.ts`), the in-memory job store (`MemStorage` in
`server/storage.ts`), and the job controller (`server/pdf-generator.ts`,
`server/routes.ts`).  Theorems at the end of the file settle the frozen
claims about this code.
-/

namespace PdfSnap

/-- Per-URL status values, `urlStatusSchema` in `shared/schema.ts`:
`"pending" | "processing" | "complete" | "failed"`. -/
inductive UStatus where
  | pending
  | processing
  | complete
  | failed
deriving DecidableEq, Repr

/-- One entry of `urlStatuses`: `{url, status, error?}` (`shared/schema.ts`).
`error` is `Option String` because the field is optional (`undefined` when
absent at runtime). -/
structure UrlStatus where
  url : String
  status : UStatus
  error : Option String
deriving DecidableEq, Repr

/-- The `urlStatuses` column is `jsonb` (TypeScript type `unknown`); the code
in `updateUrlStatus` guards on `Array.isArray(job.urlStatuses)`.  We model the
field as either an array of `UrlStatus` values or some non-array JSON value. -/
inductive UrlStatusesField where
  | arr (xs : List UrlStatus)
  | notArr
deriving DecidableEq, Repr

/-- The `PdfJob` record (`pdfJobs` table in `shared/schema.ts`, as stored at
runtime by `MemStorage`).  `successCount` and `failCount` are `Option Nat`
because `MemStorage.createPdfJob` builds the record by spreading the insert
payload (which omits both counts: `insertPdfJobSchema` picks only `jobId`,
`urls`, `outputPath`, `status`, `completed`, `urlStatuses`), so at runtime the
two keys are absent (`undefined`) until the final completion write sets them. -/
structure PdfJob where
  id : Nat
  jobId : String
  urls : List String
  outputPath : String
  status : String
  completed : Bool
  urlStatuses : UrlStatusesField
  successCount : Option Nat
  failCount : Option Nat
  createdAt : String
deriving DecidableEq, Repr

/-- A `Partial<PdfJob>` update payload: each field is present (`some`) or
absent (`none`).  For the two optional count fields, `some v` means the key is
supplied with the number `v`; `none` means the key is absent from the patch. -/
structure PdfJobPatch where
  id : Option Nat := none
  jobId : Option String := none
  urls : Option (List String) := none
  outputPath : Option String := none
  status : Option String := none
  completed : Option Bool := none
  urlStatuses : Option UrlStatusesField := none
  successCount : Option Nat := none
  failCount : Option Nat := none
  createdAt : Option String := none
deriving DecidableEq, Repr

/-- Spread-merge `{...job, ...updates}` as performed by
`MemStorage.updatePdfJob`: a supplied field overwrites, an absent field keeps
the old value. -/
def applyPatch (job : PdfJob) (p : PdfJobPatch) : PdfJob :=
  { id := p.id.getD job.id
    jobId := p.jobId.getD job.jobId
    urls := p.urls.getD job.urls
    outputPath := p.outputPath.getD job.outputPath
    status := p.status.getD job.status
    completed := p.completed.getD job.completed
    urlStatuses := p.urlStatuses.getD job.urlStatuses
    successCount := match p.successCount with
      | some v => some v
      | none => job.successCount
    failCount := match p.failCount with
      | some v => some v
      | none => job.failCount
    createdAt := p.createdAt.getD job.createdAt }

/-- The patch produced by spreading a whole job record, `{...job, ...}`:
every key present on the record is supplied.  The count keys are absent from
the spread exactly when they are absent from the record. -/
def fullPatch (job : PdfJob) : PdfJobPatch :=
  { id := some job.id
    jobId := some job.jobId
    urls := some job.urls
    outputPath := some job.outputPath
    status := some job.status
    completed := some job.completed
    urlStatuses := some job.urlStatuses
    successCount := job.successCount
    failCount := job.failCount
    createdAt := some job.createdAt }

/-- The in-memory job store: `MemStorage.pdfJobs : Map<string, PdfJob>`,
modelled as an association list keyed by `jobId`. -/
def Store := List (String × PdfJob)
deriving DecidableEq, Repr

/-- `MemStorage.getPdfJob`: `this.pdfJobs.get(jobId)`. -/
def getPdfJob (store : Store) (jobId : String) : Option PdfJob :=
  match store with
  | [] => none
  | (k, v) :: rest => if k = jobId then some v else getPdfJob rest jobId

/-- `Map.set`: replace an existing binding in place, or append a new one. -/
def setJob (store : Store) (jobId : String) (job : PdfJob) : Store :=
  match store with
  | [] => [(jobId, job)]
  | (k, v) :: rest =>
    if k = jobId then (jobId, job) :: rest else (k, v) :: setJob rest jobId job

/-- `MemStorage.updatePdfJob(jobId, updates)`: look the job up, return
`undefined` (and leave the map alone) when absent, otherwise store and return
the spread-merged record. -/
def updatePdfJob (store : Store) (jobId : String) (p : PdfJobPatch) :
    Option PdfJob × Store :=
  match getPdfJob store jobId with
  | none => (none, store)
  | some job =>
    let updatedJob := applyPatch job p
    (some updatedJob, setJob store jobId updatedJob)

/-- `MemStorage.createPdfJob` applied to the insert payload built by the
`POST /api/pdf/generate` route (`server/routes.ts`): `urlStatuses` is
initialised to `pending` for every URL, `status` is `"pending"`,
`completed` is `false`, and the two count keys are left unset. -/
def createdJob (jobId : String) (urls : List String) (outputPath : String)
    (id : Nat) (createdAt : String) : PdfJob :=
  { id := id
    jobId := jobId
    urls := urls
    outputPath := outputPath
    status := "pending"
    completed := false
    urlStatuses := .arr (urls.map fun u => { url := u, status := .pending, error := none })
    successCount := none
    failCount := none
    createdAt := createdAt }

/-- The store after the submit route stores a fresh job. -/
def submitStore (store : Store) (jobId : String) (urls : List String)
    (outputPath : String) (id : Nat) (createdAt : String) : Store :=
  setJob store jobId (createdJob jobId urls outputPath id createdAt)

/-- `updateJobStatus` in `server/pdf-generator.ts`: re-reads the job, and if
present writes `{...job, status, completed: status === "completed" ||
status === "failed"}`.  The `error` parameter exists in the source but is
never used, which we mirror here. -/
def updateJobStatus (store : Store) (jobId : String) (status : String)
    (_error : Option String) : Store :=
  match getPdfJob store jobId with
  | none => store
  | some job =>
    (updatePdfJob store jobId
      (fullPatch { job with
        status := status
        completed := status == "completed" || status == "failed" })).2

/-- `updateUrlStatus` in `server/pdf-generator.ts`: a no-op unless the job
exists, `urlStatuses` is an array, and `0 <= urlIndex < urlStatuses.length`;
otherwise writes `{...job, urlStatuses}` where entry `urlIndex` becomes
`{...old, status, error}` (note: the `error` key is always assigned, so an
update without an error clears a previous one). -/
def updateUrlStatus (store : Store) (jobId : String) (urlIndex : Int)
    (status : UStatus) (error : Option String) : Store :=
  match getPdfJob store jobId with
  | none => store
  | some job =>
    match job.urlStatuses with
    | .notArr => store
    | .arr xs =>
      if 0 ≤ urlIndex ∧ urlIndex < (xs.length : Int) then
        let e := xs.getD urlIndex.toNat { url := "", status := .pending, error := none }
        let xs' := xs.set urlIndex.toNat { e with status := status, error := error }
        (updatePdfJob store jobId (fullPatch { job with urlStatuses := .arr xs' })).2
      else store

/-- `cancelJob` in `server/pdf-generator.ts`, restricted to its effect on the
job store: returns `false` without touching the store when the job is unknown
or already terminal, otherwise writes `{...job, status: "cancelled",
completed: true}` and returns `true`.  (The browser close that happens in
between is modelled by the `PC`-indexed resume semantics below.) -/
def cancelJob (store : Store) (jobId : String) : Bool × Store :=
  match getPdfJob store jobId with
  | none => (false, store)
  | some job =>
    if job.completed then (false, store)
    else
      (true,
        (updatePdfJob store jobId
          (fullPatch { job with status := "cancelled", completed := true })).2)

/-- The final write of `generatePdfs` after the URL loop: re-read the job and,
if present, write `{...job, status: "completed", completed: true,
successCount, failCount, outputPath}`. -/
def finalCompleteWrite (store : Store) (jobId : String) (sc fc : Nat)
    (outputPath : String) : Store :=
  match getPdfJob store jobId with
  | none => store
  | some job =>
    (updatePdfJob store jobId
      (fullPatch { job with
        status := "completed"
        completed := true
        successCount := some sc
        failCount := some fc
        outputPath := outputPath })).2

/-! ### Execution model of `generatePdfs`

`generatePdfs` is an asynchronous routine whose store effects we model as a
list of writes (`JobWrite`), parameterised by an environment (`GenEnv`)
describing the outcomes of the external operations (directory creation,
browser launch, per-URL navigation/capture).  Applying the writes to a store
with `applyWrites` reproduces the routine's effect on the job store. -/

/-- Outcome of processing one URL (steps b–i of the loop body): either the PDF
was captured and found on disk, or some step raised an error with a message. -/
inductive UrlOutcome where
  | ok
  | err (msg : String)

/-- Environment of external effects for one run of `generatePdfs`. -/
structure GenEnv where
  /-- `fs.promises.mkdir` result: `some msg` means it threw with message `msg`. -/
  mkdirResult : Option String
  /-- whether `chromium.launch` succeeds. -/
  launchOk : Bool
  /-- the launch error message when it does not. -/
  launchErr : String
  /-- per-URL outcome of the try-block body, by URL index. -/
  outcomes : Nat → UrlOutcome
  /-- the `outputPath` argument passed to `generatePdfs`. -/
  outputPath : String
  /-- error message raised by browser operations once the session is closed. -/
  closedErr : String

/-- Output-path fallback at the top of `generatePdfs`:
`if (!outputPath || outputPath === '/Downloads/pdfs') outputPath = './generated-pdfs'`. -/
def resolveOutputPath (outputPath : String) : String :=
  if outputPath = "" || outputPath = "/Downloads/pdfs" then "./generated-pdfs"
  else outputPath

/-- One store write performed by the controller. -/
inductive JobWrite where
  /-- a call to `updateJobStatus`. -/
  | jobStatus (status : String) (error : Option String)
  /-- a call to `updateUrlStatus`. -/
  | urlStatus (i : Int) (status : UStatus) (error : Option String)
  /-- the final completion write after the loop. -/
  | finalComplete (sc fc : Nat) (outputPath : String)
  /-- the store write performed by `cancelJob`: the spread
  `{...j, status: "cancelled", completed: true}` of the record `j` that
  `cancelJob` read *before* awaiting the forced session close.  The write only
  lands after the close completes, so `j` can be stale by then. -/
  | cancelWrite (j : PdfJob)
deriving DecidableEq, Repr

/-- Apply one write to the store, dispatching to the store helpers above.
The cancel write goes through `storage.updatePdfJob` with the full spread of
the (possibly stale) record `cancelJob` captured at read time. -/
def applyWrite (jobId : String) (store : Store) : JobWrite → Store
  | .jobStatus s e => updateJobStatus store jobId s e
  | .urlStatus i s e => updateUrlStatus store jobId i s e
  | .finalComplete sc fc p => finalCompleteWrite store jobId sc fc p
  | .cancelWrite j =>
    (updatePdfJob store jobId
      (fullPatch { j with status := "cancelled", completed := true })).2

/-- Apply a list of writes in order. -/
def applyWrites (jobId : String) (store : Store) (ws : List JobWrite) : Store :=
  ws.foldl (applyWrite jobId) store

/-- The URL loop of `generatePdfs` over indices `s, s+1, …, s+n-1`, carrying
the `successCount`/`failCount` accumulators: each iteration writes
`processing` for its URL, then `complete` (incrementing `successCount`) or
`failed` with the error message (incrementing `failCount`).  Returns the
emitted writes together with the final accumulator values. -/
def runLoop (outcomes : Nat → UrlOutcome) : Nat → Nat → Nat → Nat →
    List JobWrite × Nat × Nat
  | _, 0, sc, fc => ([], sc, fc)
  | s, n + 1, sc, fc =>
    match outcomes s with
    | .ok =>
      let r := runLoop outcomes (s + 1) n (sc + 1) fc
      (.urlStatus s .processing none :: .urlStatus s .complete none :: r.1,
        r.2.1, r.2.2)
    | .err m =>
      let r := runLoop outcomes (s + 1) n sc (fc + 1)
      (.urlStatus s .processing none :: .urlStatus s .failed (some m) :: r.1,
        r.2.1, r.2.2)

/-- The writes of a full, uncancelled run of `generatePdfs` over `n` URLs:
a failed `mkdir` transitions the job straight to `failed`; otherwise the job
is marked `processing`, the browser is launched (failure → job `failed`), the
URL loop runs, and the final completion write records the accumulated counts
and the resolved output path. -/
def genWrites (env : GenEnv) (n : Nat) : List JobWrite :=
  match env.mkdirResult with
  | some m => [.jobStatus "failed" (some ("Failed to create output directory: " ++ m))]
  | none =>
    .jobStatus "processing" none ::
      (if env.launchOk then
        let r := runLoop env.outcomes 0 n 0 0
        r.1 ++ [.finalComplete r.2.1 r.2.2 (resolveOutputPath env.outputPath)]
      else [.jobStatus "failed" (some env.launchErr)])

/-! ### Cancellation interleaving

`cancelJob` runs concurrently with `generatePdfs`; it can take effect at any
suspension (`await`) point of the routine.  `PC` names those points, at
helper-call granularity.  After `cancelJob` force-closes the registered
browser, every subsequent browser operation in the routine throws with
`env.closedErr`; `resumeWrites` lists the writes the routine still performs
from each suspension point under that regime.  When cancellation lands before
the browser is registered (`preMkdir`, `preLaunch`), there is no session to
close and the routine continues unaffected. -/

/-- Suspension points of `generatePdfs` at which a concurrent `cancelJob` can
take effect.  `i` is the index of the URL in flight and `sc`/`fc` are the
accumulator values at that point. -/
inductive PC where
  /-- before the `mkdir` call (routine not yet past directory setup). -/
  | preMkdir
  /-- after the `processing` job-status write, before `chromium.launch`. -/
  | preLaunch
  /-- at the top of iteration `i`, before `browser.newContext()` (outside the try). -/
  | iterStart (i sc fc : Nat)
  /-- inside the try, before the per-URL `processing` write. -/
  | inTryPreWrite (i sc fc : Nat)
  /-- inside the try after the `processing` write, at one of the browser-bound
  suspensions (`goto`, `waitForTimeout`, `autoScroll`, `page.pdf`). -/
  | inTry (i sc fc : Nat)
  /-- after `page.pdf` resolved and the file-existence check passed, before the
  `complete` write. -/
  | afterPdf (i sc fc : Nat)
  /-- inside the catch block for a per-URL error `m`, before the `failed` write. -/
  | inCatch (i sc fc : Nat) (m : String)
  /-- in the finally block after the terminal per-URL write, before `context.close()`. -/
  | inFinally (i sc fc : Nat)
  /-- after the loop, before the final completion write. -/
  | preFinal (sc fc : Nat)
deriving DecidableEq, Repr

/-- Whether the render session is registered in `activeBrowsers` at this
point, i.e. whether `cancelJob` actually closes the job's browser. -/
def sessionRegistered : PC → Bool
  | .preMkdir | .preLaunch => false
  | _ => true

/-- The index of the URL in flight at a suspension point (0 when no URL is). -/
def pcUrlIndex : PC → Nat
  | .iterStart i _ _ | .inTryPreWrite i _ _ | .inTry i _ _
  | .afterPdf i _ _ | .inCatch i _ _ _ | .inFinally i _ _ => i
  | _ => 0

/-- Continuation of an iteration once the browser is closed and the per-URL
terminal write (if any) has been emitted: `context.close()` is idempotent and
does not throw (§4.2 of the render-session contract); if another URL remains,
`browser.newContext()` throws and the outer catch marks the job `failed`;
otherwise the loop ends and the final completion write runs. -/
def closedTail (env : GenEnv) (n i sc fc : Nat) : List JobWrite :=
  if i + 1 < n then [.jobStatus "failed" (some env.closedErr)]
  else [.finalComplete sc fc (resolveOutputPath env.outputPath)]

/-- The writes `generatePdfs` still performs after a cancellation takes effect
at suspension point `pc` (for `n` URLs total).  For the two pre-registration
points the browser is never closed, so the routine continues as in an
uncancelled run. -/
def resumeWrites (env : GenEnv) (n : Nat) : PC → List JobWrite
  | .preMkdir => genWrites env n
  | .preLaunch =>
    if env.launchOk then
      let r := runLoop env.outcomes 0 n 0 0
      r.1 ++ [.finalComplete r.2.1 r.2.2 (resolveOutputPath env.outputPath)]
    else [.jobStatus "failed" (some env.launchErr)]
  | .iterStart _ _ _ => [.jobStatus "failed" (some env.closedErr)]
  | .inTryPreWrite i sc fc =>
    .urlStatus i .processing none :: .urlStatus i .failed (some env.closedErr) ::
      closedTail env n i sc (fc + 1)
  | .inTry i sc fc =>
    .urlStatus i .failed (some env.closedErr) :: closedTail env n i sc (fc + 1)
  | .afterPdf i sc fc =>
    .urlStatus i .complete none :: closedTail env n i (sc + 1) fc
  | .inCatch i sc fc m =>
    .urlStatus i .failed (some m) :: closedTail env n i sc (fc + 1)
  | .inFinally i sc fc => closedTail env n i sc fc
  | .preFinal sc fc => [.finalComplete sc fc (resolveOutputPath env.outputPath)]

/-- The writes of an uncancelled run that precede suspension point `pc`. -/
def writesBefore (env : GenEnv) (n : Nat) : PC → List JobWrite
  | .preMkdir => []
  | .preLaunch => [.jobStatus "processing" none]
  | .iterStart i _ _ | .inTryPreWrite i _ _ =>
    .jobStatus "processing" none :: (runLoop env.outcomes 0 i 0 0).1
  | .inTry i _ _ | .afterPdf i _ _ | .inCatch i _ _ _ =>
    .jobStatus "processing" none ::
      ((runLoop env.outcomes 0 i 0 0).1 ++ [.urlStatus i .processing none])
  | .inFinally i _ _ =>
    .jobStatus "processing" none :: (runLoop env.outcomes 0 (i + 1) 0 0).1
  | .preFinal _ _ =>
    .jobStatus "processing" none :: (runLoop env.outcomes 0 n 0 0).1

/-- Insert a write at position `m` of a write list (appended at the end when
`m` exceeds the length). -/
def insertAt (m : Nat) (w : JobWrite) (ws : List JobWrite) : List JobWrite :=
  ws.take m ++ w :: ws.drop m

/-- Full write trace of a run cancelled at suspension point `pc`.
`cancelJob` is not atomic: it reads the job record — `jst`, the record stored
at `pc` — then awaits the forced session close, and only afterwards performs
its store write, spreading the stale `jst`.  The routine's remaining writes
(`resumeWrites`, triggered by the close's rejections) race with the close, so
the deferred stale-spread write can land at any position `m` among them. -/
def cancelledTrace (env : GenEnv) (n : Nat) (pc : PC) (m : Nat) (jst : PdfJob) :
    List JobWrite :=
  writesBefore env n pc ++ insertAt m (.cancelWrite jst) (resumeWrites env n pc)

/-- Project a write trace onto one URL index: the sequence of status values
written for that URL, in order. -/
def urlProj (ws : List JobWrite) (k : Nat) : List UStatus :=
  ws.filterMap fun w =>
    match w with
    | .urlStatus i s _ => if i = (k : Int) then some s else none
    | _ => none

/-- Allowed per-URL write sequences: the write sequence for one URL (whose
stored status starts at `pending`) may only move forward along
`pending → processing → {complete | failed}` and must observe `processing`
before a terminal status. -/
def forwardOnly : List UStatus → Bool
  | [] => true
  | [.processing] => true
  | [.processing, .complete] => true
  | [.processing, .failed] => true
  | _ => false

/-- Per-URL write sequences that may still happen after a cancellation for the
URL in flight: nothing, just its terminal write, or its `processing` write
followed by the `failed` write for the aborted operation. -/
def residualOk : List UStatus → Bool
  | [] => true
  | [.complete] => true
  | [.failed] => true
  | [.processing, .failed] => true
  | _ => false

/-- The per-URL status a polling consumer currently observes in the store for
URL `k` of job `jobId`: `none` when the job is absent, `urlStatuses` is not an
array, or the index is out of range. -/
def storedUrlStatus (store : Store) (jobId : String) (k : Nat) : Option UStatus :=
  match getPdfJob store jobId with
  | none => none
  | some j =>
    match j.urlStatuses with
    | .notArr => none
    | .arr xs => (xs[k]?).map fun e => e.status

/-- The stored status of URL `k` observed after each prefix of a write trace,
starting from `store` (the head is the status before any write). -/
def statusHistory (jobId : String) (k : Nat) :
    Store → List JobWrite → List (Option UStatus)
  | store, [] => [storedUrlStatus store jobId k]
  | store, w :: ws =>
    storedUrlStatus store jobId k ::
      statusHistory jobId k (applyWrite jobId store w) ws

/-! ### Filename derivation (loop body, step g) -/

/-- `url.replace(/^https?:\/\//, '')`: strip a leading `http://` or
`https://` scheme.  (Expressed over the character list so the kernel can
evaluate it.) -/
def stripScheme (s : String) : String :=
  if s.data.take 8 = "https://".data then String.mk (s.data.drop 8)
  else if s.data.take 7 = "http://".data then String.mk (s.data.drop 7)
  else s

/-- `.replace(/^www\./, '')`: strip a leading `www.`. -/
def stripWww (s : String) : String :=
  if s.data.take 4 = "www.".data then String.mk (s.data.drop 4) else s

/-- The characters before the first `/` — `.split('/')[0]`. -/
def takeUntilSlash : List Char → List Char
  | [] => []
  | c :: rest => if c = '/' then [] else c :: takeUntilSlash rest

/-- `domain`: scheme and leading `www.` stripped, then everything up to the
first `/`. -/
def domainOf (url : String) : String :=
  String.mk (takeUntilSlash (stripWww (stripScheme url)).data)

/-- `new Date().toISOString().replace(/[:.]/g, '-')`: the filesystem-safe
timestamp, with every colon and period replaced by a dash. -/
def sanitizeTs (ts : String) : String :=
  String.mk (ts.data.map fun c => if c = ':' || c = '.' then '-' else c)

/-- The derived output filename for a URL captured with clock reading `ts`:
`` `${domain}_${timestamp}.pdf` ``. -/
def pdfFilename (url ts : String) : String :=
  domainOf url ++ "_" ++ sanitizeTs ts ++ ".pdf"

/-! ### Reachable job records

`JobReachable` closes the created record under every job-record write the
program performs: the `processing`/`failed` transitions of `updateJobStatus`,
the final completion write, `cancelJob`'s write, and `updateUrlStatus`'s
per-URL write.  Each constructor applies the same record transformation as the
corresponding store helper. -/

/-- The record transformation of `updateJobStatus`. -/
def jobStatusWrite (job : PdfJob) (status : String) : PdfJob :=
  { job with
    status := status
    completed := status == "completed" || status == "failed" }

/-- The record transformation of the final completion write. -/
def finalWrite (job : PdfJob) (sc fc : Nat) (outputPath : String) : PdfJob :=
  { job with
    status := "completed"
    completed := true
    successCount := some sc
    failCount := some fc
    outputPath := outputPath }

/-- The record transformation of `cancelJob`'s write. -/
def cancelWriteJob (job : PdfJob) : PdfJob :=
  { job with status := "cancelled", completed := true }

/-- The record transformation of `updateUrlStatus` (in the case it writes). -/
def urlWriteJob (job : PdfJob) (xs' : List UrlStatus) : PdfJob :=
  { job with urlStatuses := .arr xs' }

/-- Job records reachable by some sequence of the program's job-record
writes, starting from the record the submit route creates. -/
inductive JobReachable : PdfJob → Prop where
  | created (jobId : String) (urls : List String) (outputPath : String)
      (id : Nat) (createdAt : String) :
      JobReachable (createdJob jobId urls outputPath id createdAt)
  | toProcessing {j : PdfJob} : JobReachable j →
      JobReachable (jobStatusWrite j "processing")
  | toFailed {j : PdfJob} : JobReachable j →
      JobReachable (jobStatusWrite j "failed")
  | toCompleted {j : PdfJob} (sc fc : Nat) (outputPath : String) :
      JobReachable j → JobReachable (finalWrite j sc fc outputPath)
  | toCancelled {j : PdfJob} : j.completed = false → JobReachable j →
      JobReachable (cancelWriteJob j)
  | urlWrite {j : PdfJob} (xs' : List UrlStatus) : JobReachable j →
      JobReachable (urlWriteJob j xs')

/-- Terminal per-URL status recorded for an outcome. -/
def termStatus : UrlOutcome → UStatus
  | .ok => .complete
  | .err _ => .failed

/-- Error message recorded for an outcome. -/
def termErr : UrlOutcome → Option String
  | .ok => none
  | .err m => some m

/-- The per-URL entries after the loop has processed them: entry `k` keeps its
URL and records the terminal status and error of outcome `s + k`. -/
def finishList (outcomes : Nat → UrlOutcome) : Nat → List UrlStatus → List UrlStatus
  | _, [] => []
  | s, e :: rest =>
    { url := e.url, status := termStatus (outcomes s), error := termErr (outcomes s) } ::
      finishList outcomes (s + 1) rest

/-- Number of entries with a given status. -/
def countWithStatus (t : UStatus) (xs : List UrlStatus) : Nat :=
  (xs.filter fun e => e.status = t).length

/-- Whether the error message `m` is recorded anywhere on the job record: the
only error-capable slots of a `PdfJob` are the per-URL `error` fields (and we
also check `status` itself).  Used to state C5's "with the error message
attached". -/
def errorAttached (j : PdfJob) (m : String) : Bool :=
  j.status == m ||
    match j.urlStatuses with
    | .arr xs => xs.any fun e => e.error == some m
    | .notArr => false

/-- A sample run environment: directory creation and launch succeed, URL 0
converts successfully, every later URL fails with a navigation error. -/
def sampleEnvOk : GenEnv :=
  { mkdirResult := none
    launchOk := true
    launchErr := "browserType.launch: Executable does not exist"
    outcomes := fun i => if i = 0 then .ok else .err "page.goto: Timeout 60000ms exceeded"
    outputPath := "/tmp/out"
    closedErr := "Target page, context or browser has been closed" }

/-- A sample run environment whose directory creation fails. -/
def sampleEnvFail : GenEnv :=
  { mkdirResult := some "EACCES: permission denied"
    launchOk := true
    launchErr := "browserType.launch: Executable does not exist"
    outcomes := fun _ => .ok
    outputPath := "/root/forbidden"
    closedErr := "Target page, context or browser has been closed" }

/-! ### Store lemmas -/

theorem getPdfJob_setJob_same (store : Store) (k : String) (j : PdfJob) :
    getPdfJob (setJob store k j) k = some j := by
  induction store with
  | nil => simp [setJob, getPdfJob]
  | cons hd tl ih =>
    by_cases h : hd.1 = k
    · simp [setJob, getPdfJob, h]
    · simp [setJob, getPdfJob, h, ih]

theorem getPdfJob_setJob_ne (store : Store) (k k' : String) (j : PdfJob)
    (h : k' ≠ k) : getPdfJob (setJob store k j) k' = getPdfJob store k' := by
  have h' : ¬ k = k' := fun hh => h hh.symm
  induction store with
  | nil => simp [setJob, getPdfJob, h']
  | cons hd tl ih =>
    obtain ⟨a, b⟩ := hd
    by_cases hk : a = k
    · subst hk
      simp [setJob, getPdfJob, h']
    · simp [setJob, getPdfJob, hk, ih]

theorem setJob_setJob (store : Store) (k : String) (j j' : PdfJob) :
    setJob (setJob store k j) k j' = setJob store k j' := by
  induction store with
  | nil => simp [setJob]
  | cons hd tl ih =>
    by_cases h : hd.1 = k
    · simp [setJob, h]
    · simp [setJob, h, ih]

theorem updatePdfJob_of_get_some {store : Store} {k : String} {j : PdfJob}
    (p : PdfJobPatch) (h : getPdfJob store k = some j) :
    updatePdfJob store k p = (some (applyPatch j p), setJob store k (applyPatch j p)) := by
  simp [updatePdfJob, h]

theorem updatePdfJob_of_get_none {store : Store} {k : String}
    (p : PdfJobPatch) (h : getPdfJob store k = none) :
    updatePdfJob store k p = (none, store) := by
  simp [updatePdfJob, h]

/-- Spreading a whole record as the patch reproduces that record, as long as
the count keys (absent from the spread when absent from the record) agree with
the target's or are supplied. -/
theorem applyPatch_fullPatch (j j' : PdfJob)
    (hsc : j'.successCount = j.successCount ∨ j'.successCount.isSome)
    (hfc : j'.failCount = j.failCount ∨ j'.failCount.isSome) :
    applyPatch j (fullPatch j') = j' := by
  cases j' with
  | mk id jobId urls outputPath status completed urlStatuses successCount failCount createdAt =>
    simp only [applyPatch, fullPatch, Option.getD_some]
    cases successCount with
    | none =>
      cases failCount with
      | none =>
        simp only [Option.isSome_none, Bool.false_eq_true, or_false] at hsc hfc
        simp_all
      | some b =>
        simp only [Option.isSome_none, Bool.false_eq_true, or_false] at hsc
        simp_all
    | some a =>
      cases failCount with
      | none =>
        simp only [Option.isSome_none, Bool.false_eq_true, or_false] at hfc
        simp_all
      | some b => simp_all

theorem updateJobStatus_of_get_some {store : Store} {k : String} {j : PdfJob}
    (s : String) (e : Option String) (h : getPdfJob store k = some j) :
    updateJobStatus store k s e = setJob store k (jobStatusWrite j s) := by
  have hap : applyPatch j (fullPatch (jobStatusWrite j s)) = jobStatusWrite j s :=
    applyPatch_fullPatch _ _ (Or.inl rfl) (Or.inl rfl)
  simp [updateJobStatus, h, updatePdfJob_of_get_some _ h, jobStatusWrite] at hap ⊢
  rw [hap]

theorem updateJobStatus_of_get_none {store : Store} {k : String}
    (s : String) (e : Option String) (h : getPdfJob store k = none) :
    updateJobStatus store k s e = store := by
  simp [updateJobStatus, h]

theorem finalCompleteWrite_of_get_some {store : Store} {k : String} {j : PdfJob}
    (sc fc : Nat) (p : String) (h : getPdfJob store k = some j) :
    finalCompleteWrite store k sc fc p = setJob store k (finalWrite j sc fc p) := by
  have hap : applyPatch j (fullPatch (finalWrite j sc fc p)) = finalWrite j sc fc p :=
    applyPatch_fullPatch _ _ (Or.inr rfl) (Or.inr rfl)
  simp [finalCompleteWrite, h, updatePdfJob_of_get_some _ h, finalWrite] at hap ⊢
  rw [hap]

theorem cancelJob_of_get_none {store : Store} {k : String}
    (h : getPdfJob store k = none) : cancelJob store k = (false, store) := by
  simp [cancelJob, h]

theorem cancelJob_of_completed {store : Store} {k : String} {j : PdfJob}
    (h : getPdfJob store k = some j) (hc : j.completed = true) :
    cancelJob store k = (false, store) := by
  simp [cancelJob, h, hc]

theorem cancelJob_of_active {store : Store} {k : String} {j : PdfJob}
    (h : getPdfJob store k = some j) (hc : j.completed = false) :
    cancelJob store k = (true, setJob store k (cancelWriteJob j)) := by
  have hap : applyPatch j (fullPatch (cancelWriteJob j)) = cancelWriteJob j :=
    applyPatch_fullPatch _ _ (Or.inl rfl) (Or.inl rfl)
  simp [cancelJob, h, hc, updatePdfJob_of_get_some _ h, cancelWriteJob] at hap ⊢
  rw [hap]

/-! ### List lemmas for indexed updates at the split point -/

theorem set_append_cons {α : Type} (front : List α) (e : α) (rest : List α) (v : α) :
    (front ++ e :: rest).set front.length v = front ++ v :: rest := by
  induction front with
  | nil => simp [List.set]
  | cons hd tl ih => simp [List.set, ih]

theorem getD_append_cons {α : Type} (front : List α) (e : α) (rest : List α) (d : α) :
    (front ++ e :: rest).getD front.length d = e := by
  induction front with
  | nil => simp
  | cons hd tl ih => simpa using ih

theorem updateUrlStatus_of_valid {store : Store} {k : String} {j : PdfJob}
    (front : List UrlStatus) (e : UrlStatus) (rest : List UrlStatus)
    (s : UStatus) (err : Option String)
    (h : getPdfJob store k = some j)
    (hx : j.urlStatuses = .arr (front ++ e :: rest)) :
    updateUrlStatus store k (front.length : Int) s err =
      setJob store k (urlWriteJob j (front ++ { e with status := s, error := err } :: rest)) := by
  have hcond : (0 : Int) ≤ (front.length : Int) ∧
      (front.length : Int) < ((front ++ e :: rest).length : Int) := by
    constructor
    · exact Int.ofNat_nonneg _
    · simp only [List.length_append, List.length_cons]
      omega
  have htn : ((front.length : Int)).toNat = front.length := rfl
  have hap : applyPatch j (fullPatch (urlWriteJob j
        (front ++ { e with status := s, error := err } :: rest))) =
      urlWriteJob j (front ++ { e with status := s, error := err } :: rest) :=
    applyPatch_fullPatch _ _ (Or.inl rfl) (Or.inl rfl)
  simp only [updateUrlStatus, h, hx, hcond, and_self, if_true, htn,
    getD_append_cons, set_append_cons]
  simp [updatePdfJob_of_get_some _ h, urlWriteJob] at hap ⊢
  rw [hap]

theorem updateUrlStatus_of_get_none {store : Store} {k : String}
    (i : Int) (s : UStatus) (err : Option String)
    (h : getPdfJob store k = none) : updateUrlStatus store k i s err = store := by
  simp [updateUrlStatus, h]

theorem updateUrlStatus_of_notArr {store : Store} {k : String} {j : PdfJob}
    (i : Int) (s : UStatus) (err : Option String)
    (h : getPdfJob store k = some j) (hx : j.urlStatuses = .notArr) :
    updateUrlStatus store k i s err = store := by
  simp [updateUrlStatus, h, hx]

theorem updateUrlStatus_of_oob {store : Store} {k : String} {j : PdfJob}
    {xs : List UrlStatus} (i : Int) (s : UStatus) (err : Option String)
    (h : getPdfJob store k = some j) (hx : j.urlStatuses = .arr xs)
    (hoob : i < 0 ∨ (xs.length : Int) ≤ i) :
    updateUrlStatus store k i s err = store := by
  have : ¬ ((0 : Int) ≤ i ∧ i < (xs.length : Int)) := by omega
  simp [updateUrlStatus, h, hx, this]

/-! ### Applying the URL loop to the store -/

theorem applyWrites_nil (k : String) (store : Store) :
    applyWrites k store [] = store := rfl

theorem applyWrites_cons (k : String) (store : Store) (w : JobWrite)
    (ws : List JobWrite) :
    applyWrites k store (w :: ws) = applyWrites k (applyWrite k store w) ws := rfl

theorem applyWrites_append (k : String) (store : Store) (ws1 ws2 : List JobWrite) :
    applyWrites k store (ws1 ++ ws2) = applyWrites k (applyWrites k store ws1) ws2 := by
  simp [applyWrites]

theorem setJob_of_get_same {store : Store} {k : String} {j : PdfJob}
    (h : getPdfJob store k = some j) : setJob store k j = store := by
  induction store with
  | nil => simp [getPdfJob] at h
  | cons hd tl ih =>
    obtain ⟨a, b⟩ := hd
    by_cases hk : a = k
    · subst hk
      simp [getPdfJob] at h
      simp [setJob, h]
    · simp [getPdfJob, hk] at h
      simp [setJob, hk, ih h]

theorem urlWriteJob_eta {j : PdfJob} {xs : List UrlStatus}
    (h : j.urlStatuses = .arr xs) : urlWriteJob j xs = j := by
  cases j
  simp [urlWriteJob] at h ⊢
  exact h.symm

theorem urlWriteJob_comp (j : PdfJob) (a b : List UrlStatus) :
    urlWriteJob (urlWriteJob j a) b = urlWriteJob j b := rfl

/-- Applying the writes of the URL loop (over the suffix `us`, starting at
index `front.length`) to a store whose job's `urlStatuses` is `front ++ us`
turns the suffix into its finished form and changes nothing else. -/
theorem applyWrites_runLoop (outcomes : Nat → UrlOutcome) (k : String) :
    ∀ (us front : List UrlStatus) (store : Store) (j : PdfJob) (sc fc : Nat),
      getPdfJob store k = some j →
      j.urlStatuses = .arr (front ++ us) →
      applyWrites k store (runLoop outcomes front.length us.length sc fc).1 =
        setJob store k (urlWriteJob j (front ++ finishList outcomes front.length us)) := by
  intro us
  induction us with
  | nil =>
    intro front store j sc fc h hx
    simp only [List.append_nil] at hx
    simp [runLoop, applyWrites_nil, finishList, urlWriteJob_eta hx,
      setJob_of_get_same h]
  | cons e rest ih =>
    intro front store j sc fc h hx
    have hlen : rest.length + 1 = (e :: rest).length := rfl
    set e1 : UrlStatus := { e with status := .processing, error := none } with he1
    have step1 :
        applyWrite k store (.urlStatus (front.length : Int) .processing none) =
          setJob store k (urlWriteJob j (front ++ e1 :: rest)) := by
      exact updateUrlStatus_of_valid front e rest .processing none h hx
    cases hoc : outcomes front.length with
    | ok =>
      set e2 : UrlStatus := { e with status := .complete, error := none } with he2
      have h1 : getPdfJob (setJob store k (urlWriteJob j (front ++ e1 :: rest))) k =
          some (urlWriteJob j (front ++ e1 :: rest)) := getPdfJob_setJob_same _ _ _
      have step2 :
          applyWrite k (setJob store k (urlWriteJob j (front ++ e1 :: rest)))
              (.urlStatus (front.length : Int) .complete none) =
            setJob store k (urlWriteJob j (front ++ e2 :: rest)) := by
        have := updateUrlStatus_of_valid (j := urlWriteJob j (front ++ e1 :: rest))
          front e1 rest .complete none h1 rfl
        simpa [urlWriteJob_comp, setJob_setJob, he1, he2] using this
      have hrec :
          applyWrites k (setJob store k (urlWriteJob j (front ++ e2 :: rest)))
              (runLoop outcomes (front.length + 1) rest.length (sc + 1) fc).1 =
            setJob store k
              (urlWriteJob j (front ++ e2 :: finishList outcomes (front.length + 1) rest)) := by
        have hget : getPdfJob (setJob store k (urlWriteJob j (front ++ e2 :: rest))) k =
            some (urlWriteJob j (front ++ e2 :: rest)) := getPdfJob_setJob_same _ _ _
        have hx2 : (urlWriteJob j (front ++ e2 :: rest)).urlStatuses =
            .arr ((front ++ [e2]) ++ rest) := by
          simp [urlWriteJob]
        have := ih (front ++ [e2]) _ _ (sc + 1) fc hget hx2
        simpa [urlWriteJob_comp, setJob_setJob, List.append_assoc] using this
      calc applyWrites k store (runLoop outcomes front.length (e :: rest).length sc fc).1
          = applyWrites k (setJob store k (urlWriteJob j (front ++ e2 :: rest)))
              (runLoop outcomes (front.length + 1) rest.length (sc + 1) fc).1 := by
            simp only [List.length_cons, runLoop, hoc, applyWrites_cons, step1, step2]
        _ = setJob store k
              (urlWriteJob j (front ++ e2 :: finishList outcomes (front.length + 1) rest)) := hrec
        _ = setJob store k (urlWriteJob j (front ++ finishList outcomes front.length (e :: rest))) := by
            simp [finishList, hoc, termStatus, termErr, he2]
    | err m =>
      set e2 : UrlStatus := { e with status := .failed, error := some m } with he2
      have h1 : getPdfJob (setJob store k (urlWriteJob j (front ++ e1 :: rest))) k =
          some (urlWriteJob j (front ++ e1 :: rest)) := getPdfJob_setJob_same _ _ _
      have step2 :
          applyWrite k (setJob store k (urlWriteJob j (front ++ e1 :: rest)))
              (.urlStatus (front.length : Int) .failed (some m)) =
            setJob store k (urlWriteJob j (front ++ e2 :: rest)) := by
        have := updateUrlStatus_of_valid (j := urlWriteJob j (front ++ e1 :: rest))
          front e1 rest .failed (some m) h1 rfl
        simpa [urlWriteJob_comp, setJob_setJob, he1, he2] using this
      have hrec :
          applyWrites k (setJob store k (urlWriteJob j (front ++ e2 :: rest)))
              (runLoop outcomes (front.length + 1) rest.length sc (fc + 1)).1 =
            setJob store k
              (urlWriteJob j (front ++ e2 :: finishList outcomes (front.length + 1) rest)) := by
        have hget : getPdfJob (setJob store k (urlWriteJob j (front ++ e2 :: rest))) k =
            some (urlWriteJob j (front ++ e2 :: rest)) := getPdfJob_setJob_same _ _ _
        have hx2 : (urlWriteJob j (front ++ e2 :: rest)).urlStatuses =
            .arr ((front ++ [e2]) ++ rest) := by
          simp [urlWriteJob]
        have := ih (front ++ [e2]) _ _ sc (fc + 1) hget hx2
        simpa [urlWriteJob_comp, setJob_setJob, List.append_assoc] using this
      calc applyWrites k store (runLoop outcomes front.length (e :: rest).length sc fc).1
          = applyWrites k (setJob store k (urlWriteJob j (front ++ e2 :: rest)))
              (runLoop outcomes (front.length + 1) rest.length sc (fc + 1)).1 := by
            simp only [List.length_cons, runLoop, hoc, applyWrites_cons, step1, step2]
        _ = setJob store k
              (urlWriteJob j (front ++ e2 :: finishList outcomes (front.length + 1) rest)) := hrec
        _ = setJob store k (urlWriteJob j (front ++ finishList outcomes front.length (e :: rest))) := by
            simp [finishList, hoc, termStatus, termErr, he2]

/-! ### Counter lemmas -/

theorem runLoop_counts_sum (outcomes : Nat → UrlOutcome) :
    ∀ (n s sc fc : Nat),
      (runLoop outcomes s n sc fc).2.1 + (runLoop outcomes s n sc fc).2.2 =
        sc + fc + n := by
  intro n
  induction n with
  | zero => intro s sc fc; simp [runLoop]
  | succ n ih =>
    intro s sc fc
    cases hoc : outcomes s with
    | ok =>
      have := ih (s + 1) (sc + 1) fc
      simp only [runLoop, hoc]
      omega
    | err m =>
      have := ih (s + 1) sc (fc + 1)
      simp only [runLoop, hoc]
      omega

theorem finishList_length (outcomes : Nat → UrlOutcome) :
    ∀ (us : List UrlStatus) (s : Nat),
      (finishList outcomes s us).length = us.length := by
  intro us
  induction us with
  | nil => intro s; rfl
  | cons e rest ih => intro s; simp [finishList, ih]

theorem runLoop_success_eq (outcomes : Nat → UrlOutcome) :
    ∀ (us : List UrlStatus) (s sc fc : Nat),
      (runLoop outcomes s us.length sc fc).2.1 =
        sc + countWithStatus .complete (finishList outcomes s us) := by
  intro us
  induction us with
  | nil => intro s sc fc; simp [runLoop, finishList, countWithStatus]
  | cons e rest ih =>
    intro s sc fc
    cases hoc : outcomes s with
    | ok =>
      have := ih (s + 1) (sc + 1) fc
      simp only [List.length_cons, runLoop, hoc, finishList, termStatus, termErr,
        countWithStatus, List.filter_cons] at this ⊢
      simp only [this, countWithStatus]
      simp
      omega
    | err m =>
      have := ih (s + 1) sc (fc + 1)
      simp only [List.length_cons, runLoop, hoc, finishList, termStatus, termErr,
        countWithStatus, List.filter_cons] at this ⊢
      simp only [this, countWithStatus]
      simp

theorem runLoop_fail_eq (outcomes : Nat → UrlOutcome) :
    ∀ (us : List UrlStatus) (s sc fc : Nat),
      (runLoop outcomes s us.length sc fc).2.2 =
        fc + countWithStatus .failed (finishList outcomes s us) := by
  intro us
  induction us with
  | nil => intro s sc fc; simp [runLoop, finishList, countWithStatus]
  | cons e rest ih =>
    intro s sc fc
    cases hoc : outcomes s with
    | ok =>
      have := ih (s + 1) (sc + 1) fc
      simp only [List.length_cons, runLoop, hoc, finishList, termStatus, termErr,
        countWithStatus, List.filter_cons] at this ⊢
      simp only [this, countWithStatus]
      simp
    | err m =>
      have := ih (s + 1) sc (fc + 1)
      simp only [List.length_cons, runLoop, hoc, finishList, termStatus, termErr,
        countWithStatus, List.filter_cons] at this ⊢
      simp only [this, countWithStatus]
      simp
      omega

/-! ### Projection lemmas for per-URL write sequences -/

theorem urlProj_append (ws1 ws2 : List JobWrite) (k : Nat) :
    urlProj (ws1 ++ ws2) k = urlProj ws1 k ++ urlProj ws2 k := by
  simp [urlProj]

theorem urlProj_jobStatus (s : String) (e : Option String) (ws : List JobWrite)
    (k : Nat) : urlProj (.jobStatus s e :: ws) k = urlProj ws k := by
  simp [urlProj, List.filterMap_cons]

theorem urlProj_finalComplete (sc fc : Nat) (p : String) (ws : List JobWrite)
    (k : Nat) : urlProj (.finalComplete sc fc p :: ws) k = urlProj ws k := by
  simp [urlProj, List.filterMap_cons]

theorem urlProj_cancelWrite (j : PdfJob) (ws : List JobWrite) (k : Nat) :
    urlProj (.cancelWrite j :: ws) k = urlProj ws k := by
  simp [urlProj, List.filterMap_cons]

theorem urlProj_insertAt_cancel (m : Nat) (j : PdfJob) (ws : List JobWrite)
    (k : Nat) :
    urlProj (insertAt m (.cancelWrite j) ws) k = urlProj ws k := by
  unfold insertAt
  rw [urlProj_append, urlProj_cancelWrite, ← urlProj_append,
    List.take_append_drop]

theorem urlProj_urlStatus (i : Int) (s : UStatus) (e : Option String)
    (ws : List JobWrite) (k : Nat) :
    urlProj (.urlStatus i s e :: ws) k =
      if i = (k : Int) then s :: urlProj ws k else urlProj ws k := by
  by_cases h : i = (k : Int) <;> simp [urlProj, List.filterMap_cons, h]

theorem urlProj_nil (k : Nat) : urlProj [] k = [] := rfl

theorem urlProj_runLoop (outcomes : Nat → UrlOutcome) :
    ∀ (n s sc fc k : Nat),
      urlProj (runLoop outcomes s n sc fc).1 k =
        if s ≤ k ∧ k < s + n then [.processing, termStatus (outcomes k)] else [] := by
  intro n
  induction n with
  | zero =>
    intro s sc fc k
    have h : ¬ (s ≤ k ∧ k < s + 0) := by omega
    simp [runLoop, urlProj_nil, h]
  | succ n ih =>
    intro s sc fc k
    by_cases hk : s = k
    · subst hk
      have hcond : s ≤ s ∧ s < s + (n + 1) := by omega
      have hrec : ¬ (s + 1 ≤ s ∧ s < s + 1 + n) := by omega
      cases hoc : outcomes s with
      | ok =>
        simp [runLoop, hoc, urlProj_urlStatus, ih (s + 1) (sc + 1) fc s, hrec,
          hcond, termStatus]
      | err m =>
        simp [runLoop, hoc, urlProj_urlStatus, ih (s + 1) sc (fc + 1) s, hrec,
          hcond, termStatus]
    · have hiff : (s + 1 ≤ k ∧ k < s + 1 + n) ↔ (s ≤ k ∧ k < s + (n + 1)) := by omega
      have hne : ¬ ((s : Int) = (k : Int)) := by
        simpa using hk
      cases hoc : outcomes s with
      | ok =>
        rw [show (runLoop outcomes s (n + 1) sc fc).1 =
          .urlStatus s .processing none :: .urlStatus s .complete none ::
            (runLoop outcomes (s + 1) n (sc + 1) fc).1 from by simp [runLoop, hoc]]
        rw [urlProj_urlStatus, urlProj_urlStatus, if_neg hne, if_neg hne,
          ih (s + 1) (sc + 1) fc k]
        by_cases hc : s + 1 ≤ k ∧ k < s + 1 + n
        · rw [if_pos hc, if_pos (hiff.mp hc)]
        · rw [if_neg hc, if_neg (fun hc2 => hc (hiff.mpr hc2))]
      | err m =>
        rw [show (runLoop outcomes s (n + 1) sc fc).1 =
          .urlStatus s .processing none :: .urlStatus s .failed (some m) ::
            (runLoop outcomes (s + 1) n sc (fc + 1)).1 from by simp [runLoop, hoc]]
        rw [urlProj_urlStatus, urlProj_urlStatus, if_neg hne, if_neg hne,
          ih (s + 1) sc (fc + 1) k]
        by_cases hc : s + 1 ≤ k ∧ k < s + 1 + n
        · rw [if_pos hc, if_pos (hiff.mp hc)]
        · rw [if_neg hc, if_neg (fun hc2 => hc (hiff.mpr hc2))]

theorem urlProj_closedTail (env : GenEnv) (n i sc fc k : Nat) :
    urlProj (closedTail env n i sc fc) k = [] := by
  unfold closedTail
  split <;> simp [urlProj]

theorem forwardOnly_term (o : UrlOutcome) :
    forwardOnly [.processing, termStatus o] = true := by
  cases o <;> rfl

theorem forwardOnly_urlProj_genWrites (env : GenEnv) (n k : Nat) :
    forwardOnly (urlProj (genWrites env n) k) = true := by
  unfold genWrites
  cases env.mkdirResult with
  | some m => simp [urlProj, forwardOnly]
  | none =>
    cases hl : env.launchOk with
    | false => simp [urlProj, forwardOnly]
    | true =>
      rw [if_pos rfl]
      rw [urlProj_jobStatus, urlProj_append, urlProj_finalComplete, urlProj_nil,
        urlProj_runLoop]
      split
      · exact forwardOnly_term _
      · rfl

/-! ### Claim theorems -/

/-- C1: for every job whose processing routine runs to the end of the URL loop
without an uncaught failure (directory creation succeeds and the browser
launches, so the job reaches status `completed`), the final job record has
`successCount + failCount = urls.length`, with `successCount` counting exactly
the URLs whose per-URL status is `complete` and `failCount` those whose status
is `failed`. -/
theorem generate_completed_counts
    (store : Store) (jobId : String) (urls : List String) (outputPath : String)
    (id : Nat) (createdAt : String) (env : GenEnv)
    (hmk : env.mkdirResult = none) (hl : env.launchOk = true) :
    ∃ j xs,
      getPdfJob
        (applyWrites jobId (submitStore store jobId urls outputPath id createdAt)
          (genWrites env urls.length)) jobId = some j ∧
      j.status = "completed" ∧ j.completed = true ∧
      j.urlStatuses = .arr xs ∧ xs.length = urls.length ∧
      j.successCount = some (countWithStatus .complete xs) ∧
      j.failCount = some (countWithStatus .failed xs) ∧
      countWithStatus .complete xs + countWithStatus .failed xs = urls.length := by
  set st0 : Store := submitStore store jobId urls outputPath id createdAt with hst0
  set j0 : PdfJob := createdJob jobId urls outputPath id createdAt with hj0
  have hget0 : getPdfJob st0 jobId = some j0 := getPdfJob_setJob_same _ _ _
  set us0 : List UrlStatus :=
    urls.map (fun u => { url := u, status := .pending, error := none }) with hus0
  have hlen0 : us0.length = urls.length := by simp [hus0]
  set j1 : PdfJob := jobStatusWrite j0 "processing" with hj1
  have hstep1 : applyWrite jobId st0 (.jobStatus "processing" none) =
      setJob st0 jobId j1 := by
    exact updateJobStatus_of_get_some "processing" none hget0
  set st1 : Store := setJob st0 jobId j1 with hst1
  have hget1 : getPdfJob st1 jobId = some j1 := getPdfJob_setJob_same _ _ _
  have hx1 : j1.urlStatuses = .arr ([] ++ us0) := by
    simp [hj1, hj0, jobStatusWrite, createdJob, hus0]
  set fin : List UrlStatus := finishList env.outcomes 0 us0 with hfin
  have hloop : applyWrites jobId st1 (runLoop env.outcomes 0 us0.length 0 0).1 =
      setJob st1 jobId (urlWriteJob j1 fin) := by
    have := applyWrites_runLoop env.outcomes jobId us0 [] st1 j1 0 0 hget1 hx1
    simpa using this
  set j2 : PdfJob := urlWriteJob j1 fin with hj2
  set st2 : Store := setJob st1 jobId j2 with hst2
  have hget2 : getPdfJob st2 jobId = some j2 := getPdfJob_setJob_same _ _ _
  set r := runLoop env.outcomes 0 urls.length 0 0 with hr
  set rp : String := resolveOutputPath env.outputPath with hrp
  have hstep3 : applyWrite jobId st2 (.finalComplete r.2.1 r.2.2 rp) =
      setJob st2 jobId (finalWrite j2 r.2.1 r.2.2 rp) :=
    finalCompleteWrite_of_get_some _ _ _ hget2
  have hws : genWrites env urls.length =
      .jobStatus "processing" none :: (r.1 ++ [.finalComplete r.2.1 r.2.2 rp]) := by
    simp [genWrites, hmk, hl, hr, hrp]
  have hloop2 : applyWrites jobId st1 r.1 = setJob st1 jobId j2 := by
    rw [hr, ← hlen0]
    exact hloop
  have hfinal : applyWrites jobId st0 (genWrites env urls.length) =
      setJob st2 jobId (finalWrite j2 r.2.1 r.2.2 rp) := by
    rw [hws, applyWrites_cons, hstep1, applyWrites_append, hloop2, ← hst2,
      applyWrites_cons, hstep3, applyWrites_nil]
  refine ⟨finalWrite j2 r.2.1 r.2.2 rp, fin, ?_, rfl, rfl, ?_, ?_, ?_, ?_, ?_⟩
  · rw [hfinal]
    exact getPdfJob_setJob_same _ _ _
  · simp [finalWrite, hj2, urlWriteJob]
  · rw [hfin, finishList_length, hlen0]
  · have := runLoop_success_eq env.outcomes us0 0 0 0
    rw [hlen0] at this
    simp [finalWrite, ← hr, ← hfin] at this ⊢
    exact this
  · have := runLoop_fail_eq env.outcomes us0 0 0 0
    rw [hlen0] at this
    simp [finalWrite, ← hr, ← hfin] at this ⊢
    exact this
  · have hsum := runLoop_counts_sum env.outcomes urls.length 0 0 0
    have hsc := runLoop_success_eq env.outcomes us0 0 0 0
    have hfc := runLoop_fail_eq env.outcomes us0 0 0 0
    rw [hlen0] at hsc hfc
    rw [← hr] at hsum hsc hfc
    rw [← hfin] at hsc hfc
    omega

/-- Witness for C1: a concrete two-URL job (one success, one failure)
reaching `completed` with matching counts. -/
theorem generate_completed_counts_witness :
    sampleEnvOk.mkdirResult = none ∧ sampleEnvOk.launchOk = true ∧
    (∃ j xs,
      getPdfJob
        (applyWrites "job-1"
          (submitStore [] "job-1" ["https://a.example", "https://b.example"]
            "/tmp/out" 1 "2024-01-01T00:00:00.000Z")
          (genWrites sampleEnvOk 2)) "job-1" = some j ∧
      j.status = "completed" ∧ j.completed = true ∧
      j.urlStatuses = .arr xs ∧ xs.length = 2 ∧
      j.successCount = some (countWithStatus .complete xs) ∧
      j.failCount = some (countWithStatus .failed xs) ∧
      countWithStatus .complete xs + countWithStatus .failed xs = 2) :=
  ⟨rfl, rfl,
    generate_completed_counts [] "job-1" ["https://a.example", "https://b.example"]
      "/tmp/out" 1 "2024-01-01T00:00:00.000Z" sampleEnvOk rfl rfl⟩

/-- In the routine's own writes — the uncancelled prefix up to any suspension
point followed by the post-cancellation continuation — each URL's write
sequence is forward-only. -/
theorem forwardOnly_before_resume (env : GenEnv) (n k : Nat) (pc : PC) :
    forwardOnly (urlProj (writesBefore env n pc ++ resumeWrites env n pc) k) =
      true := by
  cases pc with
  | preMkdir =>
    rw [show writesBefore env n .preMkdir = [] from rfl, List.nil_append]
    exact forwardOnly_urlProj_genWrites env n k
  | preLaunch =>
    rw [show (writesBefore env n .preLaunch ++ resumeWrites env n .preLaunch) =
      .jobStatus "processing" none :: resumeWrites env n .preLaunch from rfl]
    rw [urlProj_jobStatus]
    cases hl : env.launchOk with
    | true =>
      rw [show resumeWrites env n .preLaunch =
        (runLoop env.outcomes 0 n 0 0).1 ++
          [.finalComplete (runLoop env.outcomes 0 n 0 0).2.1
            (runLoop env.outcomes 0 n 0 0).2.2 (resolveOutputPath env.outputPath)]
        from by simp [resumeWrites, hl]]
      rw [urlProj_append, urlProj_finalComplete, urlProj_nil, List.append_nil,
        urlProj_runLoop]
      split
      · exact forwardOnly_term _
      · rfl
    | false =>
      rw [show resumeWrites env n .preLaunch = [.jobStatus "failed" (some env.launchErr)]
        from by simp [resumeWrites, hl]]
      rfl
  | iterStart i sc fc =>
    rw [show (writesBefore env n (.iterStart i sc fc) ++
        resumeWrites env n (.iterStart i sc fc)) =
      .jobStatus "processing" none :: ((runLoop env.outcomes 0 i 0 0).1 ++
        [.jobStatus "failed" (some env.closedErr)]) from rfl]
    rw [urlProj_jobStatus, urlProj_append, urlProj_jobStatus, urlProj_nil,
      List.append_nil, urlProj_runLoop]
    split
    · exact forwardOnly_term _
    · rfl
  | inTryPreWrite i sc fc =>
    rw [show (writesBefore env n (.inTryPreWrite i sc fc) ++
        resumeWrites env n (.inTryPreWrite i sc fc)) =
      .jobStatus "processing" none :: ((runLoop env.outcomes 0 i 0 0).1 ++
        .urlStatus i .processing none ::
          .urlStatus i .failed (some env.closedErr) ::
            closedTail env n i sc (fc + 1)) from rfl]
    rw [urlProj_jobStatus, urlProj_append, urlProj_urlStatus,
      urlProj_urlStatus, urlProj_closedTail, urlProj_runLoop]
    rcases Nat.lt_trichotomy k i with h | h | h
    · have h1 : 0 ≤ k ∧ k < 0 + i := by omega
      have h2 : ¬ ((i : Int) = (k : Int)) := by
        simpa using (by omega : ¬ i = k)
      simp only [h1, and_self, if_true, if_pos, if_neg h2, List.append_nil]
      exact forwardOnly_term _
    · have h1 : ¬ (0 ≤ k ∧ k < 0 + i) := by omega
      have h2 : (i : Int) = (k : Int) := by simp [h]
      simp only [if_neg h1, if_pos h2, List.nil_append]
      rfl
    · have h1 : ¬ (0 ≤ k ∧ k < 0 + i) := by omega
      have h2 : ¬ ((i : Int) = (k : Int)) := by
        simpa using (by omega : ¬ i = k)
      simp only [if_neg h1, if_neg h2, List.nil_append]
      rfl
  | inTry i sc fc =>
    rw [show (writesBefore env n (.inTry i sc fc) ++
        resumeWrites env n (.inTry i sc fc)) =
      .jobStatus "processing" none :: (((runLoop env.outcomes 0 i 0 0).1 ++
        [.urlStatus i .processing none]) ++
        .urlStatus i .failed (some env.closedErr) ::
          closedTail env n i sc (fc + 1)) from rfl]
    rw [List.append_assoc, List.singleton_append, urlProj_jobStatus,
      urlProj_append, urlProj_urlStatus, urlProj_urlStatus,
      urlProj_closedTail, urlProj_runLoop]
    rcases Nat.lt_trichotomy k i with h | h | h
    · have h1 : 0 ≤ k ∧ k < 0 + i := by omega
      have h2 : ¬ ((i : Int) = (k : Int)) := by
        simpa using (by omega : ¬ i = k)
      simp only [h1, and_self, if_true, if_pos, if_neg h2, List.append_nil]
      exact forwardOnly_term _
    · have h1 : ¬ (0 ≤ k ∧ k < 0 + i) := by omega
      have h2 : (i : Int) = (k : Int) := by simp [h]
      simp only [if_neg h1, if_pos h2, List.nil_append]
      rfl
    · have h1 : ¬ (0 ≤ k ∧ k < 0 + i) := by omega
      have h2 : ¬ ((i : Int) = (k : Int)) := by
        simpa using (by omega : ¬ i = k)
      simp only [if_neg h1, if_neg h2, List.nil_append]
      rfl
  | afterPdf i sc fc =>
    rw [show (writesBefore env n (.afterPdf i sc fc) ++
        resumeWrites env n (.afterPdf i sc fc)) =
      .jobStatus "processing" none :: (((runLoop env.outcomes 0 i 0 0).1 ++
        [.urlStatus i .processing none]) ++
        .urlStatus i .complete none ::
          closedTail env n i (sc + 1) fc) from rfl]
    rw [List.append_assoc, List.singleton_append, urlProj_jobStatus,
      urlProj_append, urlProj_urlStatus, urlProj_urlStatus,
      urlProj_closedTail, urlProj_runLoop]
    rcases Nat.lt_trichotomy k i with h | h | h
    · have h1 : 0 ≤ k ∧ k < 0 + i := by omega
      have h2 : ¬ ((i : Int) = (k : Int)) := by
        simpa using (by omega : ¬ i = k)
      simp only [h1, and_self, if_true, if_pos, if_neg h2, List.append_nil]
      exact forwardOnly_term _
    · have h1 : ¬ (0 ≤ k ∧ k < 0 + i) := by omega
      have h2 : (i : Int) = (k : Int) := by simp [h]
      simp only [if_neg h1, if_pos h2, List.nil_append]
      rfl
    · have h1 : ¬ (0 ≤ k ∧ k < 0 + i) := by omega
      have h2 : ¬ ((i : Int) = (k : Int)) := by
        simpa using (by omega : ¬ i = k)
      simp only [if_neg h1, if_neg h2, List.nil_append]
      rfl
  | inCatch i sc fc m =>
    rw [show (writesBefore env n (.inCatch i sc fc m) ++
        resumeWrites env n (.inCatch i sc fc m)) =
      .jobStatus "processing" none :: (((runLoop env.outcomes 0 i 0 0).1 ++
        [.urlStatus i .processing none]) ++
        .urlStatus i .failed (some m) ::
          closedTail env n i sc (fc + 1)) from rfl]
    rw [List.append_assoc, List.singleton_append, urlProj_jobStatus,
      urlProj_append, urlProj_urlStatus, urlProj_urlStatus,
      urlProj_closedTail, urlProj_runLoop]
    rcases Nat.lt_trichotomy k i with h | h | h
    · have h1 : 0 ≤ k ∧ k < 0 + i := by omega
      have h2 : ¬ ((i : Int) = (k : Int)) := by
        simpa using (by omega : ¬ i = k)
      simp only [h1, and_self, if_true, if_pos, if_neg h2, List.append_nil]
      exact forwardOnly_term _
    · have h1 : ¬ (0 ≤ k ∧ k < 0 + i) := by omega
      have h2 : (i : Int) = (k : Int) := by simp [h]
      simp only [if_neg h1, if_pos h2, List.nil_append]
      rfl
    · have h1 : ¬ (0 ≤ k ∧ k < 0 + i) := by omega
      have h2 : ¬ ((i : Int) = (k : Int)) := by
        simpa using (by omega : ¬ i = k)
      simp only [if_neg h1, if_neg h2, List.nil_append]
      rfl
  | inFinally i sc fc =>
    rw [show (writesBefore env n (.inFinally i sc fc) ++
        resumeWrites env n (.inFinally i sc fc)) =
      .jobStatus "processing" none :: ((runLoop env.outcomes 0 (i + 1) 0 0).1 ++
        closedTail env n i sc fc) from rfl]
    rw [urlProj_jobStatus, urlProj_append, urlProj_closedTail,
      List.append_nil, urlProj_runLoop]
    split
    · exact forwardOnly_term _
    · rfl
  | preFinal sc fc =>
    rw [show (writesBefore env n (.preFinal sc fc) ++
        resumeWrites env n (.preFinal sc fc)) =
      .jobStatus "processing" none :: ((runLoop env.outcomes 0 n 0 0).1 ++
        [.finalComplete sc fc (resolveOutputPath env.outputPath)]) from rfl]
    rw [urlProj_jobStatus, urlProj_append, urlProj_finalComplete,
      urlProj_nil, List.append_nil, urlProj_runLoop]
    split
    · exact forwardOnly_term _
    · rfl

/-- C2 (amended): the per-URL status **writes** performed by the processing
routine only ever move forward along `pending → processing → {complete |
failed}`: in the uncancelled trace and at every cancellation interleaving
(every suspension point `pc`, every landing position `m` of `cancelJob`'s
deferred write, every read-time record `jst`), the write sequence for one URL
is one of `[]`, `[processing]`, `[processing, complete]`,
`[processing, failed]` — a terminal status is written at most once, never
changed by a later per-URL write, and never written without a `processing`
write first.  The *stored* status, however, is not monotone: `cancelJob`'s
write spreads the record it read before awaiting the session close, resetting
`urlStatuses` to exactly the read-time array (second conjunct), which can
revert the in-flight URL's concurrently written terminal status back to
`processing` — `cancel_stale_write_regression` exhibits the regression the
original claim denies. -/
theorem urlstatus_writes_forward_only :
    (∀ (env : GenEnv) (n k : Nat) (pc : PC) (m : Nat) (jst : PdfJob),
      forwardOnly (urlProj (genWrites env n) k) = true ∧
      forwardOnly (urlProj (cancelledTrace env n pc m jst) k) = true) ∧
    (∀ (store : Store) (jobId : String) (jst j2 : PdfJob),
      getPdfJob store jobId = some j2 →
      getPdfJob (applyWrite jobId store (.cancelWrite jst)) jobId =
        some (applyPatch j2 (fullPatch (cancelWriteJob jst))) ∧
      (applyPatch j2 (fullPatch (cancelWriteJob jst))).urlStatuses =
        jst.urlStatuses ∧
      (applyPatch j2 (fullPatch (cancelWriteJob jst))).status = "cancelled" ∧
      (applyPatch j2 (fullPatch (cancelWriteJob jst))).completed = true) := by
  constructor
  · intro env n k pc m jst
    refine ⟨forwardOnly_urlProj_genWrites env n k, ?_⟩
    unfold cancelledTrace
    rw [urlProj_append, urlProj_insertAt_cancel, ← urlProj_append]
    exact forwardOnly_before_resume env n k pc
  · intro store jobId jst j2 h
    have hw : applyWrite jobId store (.cancelWrite jst) =
        setJob store jobId (applyPatch j2 (fullPatch (cancelWriteJob jst))) := by
      show (updatePdfJob store jobId
        (fullPatch { jst with status := "cancelled", completed := true })).2 = _
      rw [updatePdfJob_of_get_some _ h]
      rfl
    exact ⟨by rw [hw]; exact getPdfJob_setJob_same _ _ _, rfl, rfl, rfl⟩

/-- Witness for C2 (amended): the stale-spread conjunct evaluated on a
concrete store and read-time record. -/
theorem urlstatus_writes_forward_only_witness :
    getPdfJob
        (submitStore [] "job-1" ["https://a.example"] "/tmp/out" 1
          "2024-01-01T00:00:00.000Z") "job-1" =
      some (createdJob "job-1" ["https://a.example"] "/tmp/out" 1
        "2024-01-01T00:00:00.000Z") ∧
    (getPdfJob
        (applyWrite "job-1"
          (submitStore [] "job-1" ["https://a.example"] "/tmp/out" 1
            "2024-01-01T00:00:00.000Z")
          (.cancelWrite (jobStatusWrite
            (createdJob "job-1" ["https://a.example"] "/tmp/out" 1
              "2024-01-01T00:00:00.000Z") "processing"))) "job-1" =
      some (applyPatch
        (createdJob "job-1" ["https://a.example"] "/tmp/out" 1
          "2024-01-01T00:00:00.000Z")
        (fullPatch (cancelWriteJob (jobStatusWrite
          (createdJob "job-1" ["https://a.example"] "/tmp/out" 1
            "2024-01-01T00:00:00.000Z") "processing")))) ∧
    (applyPatch
      (createdJob "job-1" ["https://a.example"] "/tmp/out" 1
        "2024-01-01T00:00:00.000Z")
      (fullPatch (cancelWriteJob (jobStatusWrite
        (createdJob "job-1" ["https://a.example"] "/tmp/out" 1
          "2024-01-01T00:00:00.000Z") "processing")))).urlStatuses =
      (jobStatusWrite
        (createdJob "job-1" ["https://a.example"] "/tmp/out" 1
          "2024-01-01T00:00:00.000Z") "processing").urlStatuses ∧
    (applyPatch
      (createdJob "job-1" ["https://a.example"] "/tmp/out" 1
        "2024-01-01T00:00:00.000Z")
      (fullPatch (cancelWriteJob (jobStatusWrite
        (createdJob "job-1" ["https://a.example"] "/tmp/out" 1
          "2024-01-01T00:00:00.000Z") "processing")))).status = "cancelled" ∧
    (applyPatch
      (createdJob "job-1" ["https://a.example"] "/tmp/out" 1
        "2024-01-01T00:00:00.000Z")
      (fullPatch (cancelWriteJob (jobStatusWrite
        (createdJob "job-1" ["https://a.example"] "/tmp/out" 1
          "2024-01-01T00:00:00.000Z") "processing")))).completed = true) :=
  ⟨by decide,
    urlstatus_writes_forward_only.2
      (submitStore [] "job-1" ["https://a.example"] "/tmp/out" 1
        "2024-01-01T00:00:00.000Z") "job-1"
      (jobStatusWrite
        (createdJob "job-1" ["https://a.example"] "/tmp/out" 1
          "2024-01-01T00:00:00.000Z") "processing")
      (createdJob "job-1" ["https://a.example"] "/tmp/out" 1
        "2024-01-01T00:00:00.000Z")
      (by decide)⟩

/-- Counterexample to C2 as stated: cancel a two-URL job while URL 0's
navigation is in flight (suspension point `inTry 0`).  `cancelJob` reads the
job record — the first conjunct checks it is exactly the record stored after
the prefix writes — then awaits the forced close.  The close rejects the
in-flight `goto`; the catch block's `failed` write for URL 0 completes before
`browser.close()` resolves, and `cancelJob`'s deferred stale-spread write
lands right after it (insertion position 1).  The stored status of URL 0 over
the trace is `pending, pending, processing, failed, processing, processing`:
it regresses from the terminal `failed` back to `processing`, so a per-URL
status that reached `failed` does change again. -/
theorem cancel_stale_write_regression :
    getPdfJob
        (applyWrites "job-1"
          (submitStore [] "job-1" ["https://a.example", "https://b.example"]
            "/tmp/out" 1 "2024-01-01T00:00:00.000Z")
          (writesBefore sampleEnvOk 2 (.inTry 0 0 0))) "job-1" =
      some (urlWriteJob
        (jobStatusWrite
          (createdJob "job-1" ["https://a.example", "https://b.example"]
            "/tmp/out" 1 "2024-01-01T00:00:00.000Z") "processing")
        [{ url := "https://a.example", status := .processing, error := none },
          { url := "https://b.example", status := .pending, error := none }]) ∧
    statusHistory "job-1" 0
        (submitStore [] "job-1" ["https://a.example", "https://b.example"]
          "/tmp/out" 1 "2024-01-01T00:00:00.000Z")
        (cancelledTrace sampleEnvOk 2 (.inTry 0 0 0) 1
          (urlWriteJob
            (jobStatusWrite
              (createdJob "job-1" ["https://a.example", "https://b.example"]
                "/tmp/out" 1 "2024-01-01T00:00:00.000Z") "processing")
            [{ url := "https://a.example", status := .processing, error := none },
              { url := "https://b.example", status := .pending, error := none }])) =
      [some .pending, some .pending, some .processing, some .failed,
        some .processing, some .processing] := by
  constructor
  · decide
  · decide

/-- C3 (amended): for every job that exists and is not yet terminal,
`cancel(jobId)` returns `true` and sets the job's status to `"cancelled"` with
`completed = true`; and when the cancellation closes the job's registered
render session (it takes effect at a suspension point after session
registration), the only per-URL status writes that can still occur afterwards
are for the single URL in flight at that moment — at most its `processing`
write and one terminal write; URLs beyond the in-flight one never receive any
status write.  (The original claim's stronger "no further per-URL status
writes" is refuted by `cancel_residual_url_write`: the per-URL catch block
records the abort of the in-flight URL as a `failed` write after the session
close.) -/
theorem cancel_active_job (store : Store) (jobId : String) (j : PdfJob)
    (env : GenEnv) (n : Nat) (pc : PC)
    (hj : getPdfJob store jobId = some j) (hc : j.completed = false)
    (hreg : sessionRegistered pc = true) :
    (cancelJob store jobId).1 = true ∧
    getPdfJob (cancelJob store jobId).2 jobId = some (cancelWriteJob j) ∧
    (cancelWriteJob j).status = "cancelled" ∧
    (cancelWriteJob j).completed = true ∧
    (∀ k2, k2 ≠ pcUrlIndex pc → urlProj (resumeWrites env n pc) k2 = []) ∧
    residualOk (urlProj (resumeWrites env n pc) (pcUrlIndex pc)) = true := by
  have hcancel := cancelJob_of_active hj hc
  refine ⟨by rw [hcancel],
    by rw [hcancel]; exact getPdfJob_setJob_same _ _ _, rfl, rfl, ?_, ?_⟩
  · intro k2 hk2
    cases pc with
    | preMkdir => simp [sessionRegistered] at hreg
    | preLaunch => simp [sessionRegistered] at hreg
    | iterStart i sc fc => rfl
    | inTryPreWrite i sc fc =>
      have hne : ¬ (i = k2) := fun hh => hk2 hh.symm
      have h2 : ¬ ((i : Int) = (k2 : Int)) := by simpa using hne
      rw [show resumeWrites env n (.inTryPreWrite i sc fc) =
        .urlStatus i .processing none :: .urlStatus i .failed (some env.closedErr) ::
          closedTail env n i sc (fc + 1) from rfl]
      rw [urlProj_urlStatus, if_neg h2, urlProj_urlStatus, if_neg h2,
        urlProj_closedTail]
    | inTry i sc fc =>
      have hne : ¬ (i = k2) := fun hh => hk2 hh.symm
      have h2 : ¬ ((i : Int) = (k2 : Int)) := by simpa using hne
      rw [show resumeWrites env n (.inTry i sc fc) =
        .urlStatus i .failed (some env.closedErr) ::
          closedTail env n i sc (fc + 1) from rfl]
      rw [urlProj_urlStatus, if_neg h2, urlProj_closedTail]
    | afterPdf i sc fc =>
      have hne : ¬ (i = k2) := fun hh => hk2 hh.symm
      have h2 : ¬ ((i : Int) = (k2 : Int)) := by simpa using hne
      rw [show resumeWrites env n (.afterPdf i sc fc) =
        .urlStatus i .complete none :: closedTail env n i (sc + 1) fc from rfl]
      rw [urlProj_urlStatus, if_neg h2, urlProj_closedTail]
    | inCatch i sc fc m =>
      have hne : ¬ (i = k2) := fun hh => hk2 hh.symm
      have h2 : ¬ ((i : Int) = (k2 : Int)) := by simpa using hne
      rw [show resumeWrites env n (.inCatch i sc fc m) =
        .urlStatus i .failed (some m) :: closedTail env n i sc (fc + 1) from rfl]
      rw [urlProj_urlStatus, if_neg h2, urlProj_closedTail]
    | inFinally i sc fc =>
      rw [show resumeWrites env n (.inFinally i sc fc) =
        closedTail env n i sc fc from rfl]
      rw [urlProj_closedTail]
    | preFinal sc fc => rfl
  · cases pc with
    | preMkdir => simp [sessionRegistered] at hreg
    | preLaunch => simp [sessionRegistered] at hreg
    | iterStart i sc fc => rfl
    | inTryPreWrite i sc fc =>
      have h2 : (i : Int) = ((pcUrlIndex (.inTryPreWrite i sc fc)) : Int) := rfl
      rw [show resumeWrites env n (.inTryPreWrite i sc fc) =
        .urlStatus i .processing none :: .urlStatus i .failed (some env.closedErr) ::
          closedTail env n i sc (fc + 1) from rfl]
      rw [urlProj_urlStatus, if_pos h2, urlProj_urlStatus, if_pos h2,
        urlProj_closedTail]
      rfl
    | inTry i sc fc =>
      have h2 : (i : Int) = ((pcUrlIndex (.inTry i sc fc)) : Int) := rfl
      rw [show resumeWrites env n (.inTry i sc fc) =
        .urlStatus i .failed (some env.closedErr) ::
          closedTail env n i sc (fc + 1) from rfl]
      rw [urlProj_urlStatus, if_pos h2, urlProj_closedTail]
      rfl
    | afterPdf i sc fc =>
      have h2 : (i : Int) = ((pcUrlIndex (.afterPdf i sc fc)) : Int) := rfl
      rw [show resumeWrites env n (.afterPdf i sc fc) =
        .urlStatus i .complete none :: closedTail env n i (sc + 1) fc from rfl]
      rw [urlProj_urlStatus, if_pos h2, urlProj_closedTail]
      rfl
    | inCatch i sc fc m =>
      have h2 : (i : Int) = ((pcUrlIndex (.inCatch i sc fc m)) : Int) := rfl
      rw [show resumeWrites env n (.inCatch i sc fc m) =
        .urlStatus i .failed (some m) :: closedTail env n i sc (fc + 1) from rfl]
      rw [urlProj_urlStatus, if_pos h2, urlProj_closedTail]
      rfl
    | inFinally i sc fc =>
      rw [show resumeWrites env n (.inFinally i sc fc) =
        closedTail env n i sc fc from rfl]
      rw [urlProj_closedTail]
      rfl
    | preFinal sc fc => rfl

/-- Witness for C3 (amended): cancelling a freshly submitted two-URL job while
URL 0 is in flight. -/
theorem cancel_active_job_witness :
    getPdfJob
        (submitStore [] "job-1" ["https://a.example", "https://b.example"]
          "/tmp/out" 1 "2024-01-01T00:00:00.000Z") "job-1" =
      some (createdJob "job-1" ["https://a.example", "https://b.example"]
        "/tmp/out" 1 "2024-01-01T00:00:00.000Z") ∧
    (createdJob "job-1" ["https://a.example", "https://b.example"]
      "/tmp/out" 1 "2024-01-01T00:00:00.000Z").completed = false ∧
    sessionRegistered (.inTry 0 0 0) = true ∧
    ((cancelJob
        (submitStore [] "job-1" ["https://a.example", "https://b.example"]
          "/tmp/out" 1 "2024-01-01T00:00:00.000Z") "job-1").1 = true ∧
      getPdfJob
          (cancelJob
            (submitStore [] "job-1" ["https://a.example", "https://b.example"]
              "/tmp/out" 1 "2024-01-01T00:00:00.000Z") "job-1").2 "job-1" =
        some (cancelWriteJob
          (createdJob "job-1" ["https://a.example", "https://b.example"]
            "/tmp/out" 1 "2024-01-01T00:00:00.000Z")) ∧
      (cancelWriteJob
        (createdJob "job-1" ["https://a.example", "https://b.example"]
          "/tmp/out" 1 "2024-01-01T00:00:00.000Z")).status = "cancelled" ∧
      (cancelWriteJob
        (createdJob "job-1" ["https://a.example", "https://b.example"]
          "/tmp/out" 1 "2024-01-01T00:00:00.000Z")).completed = true ∧
      (∀ k2, k2 ≠ pcUrlIndex (.inTry 0 0 0) →
        urlProj (resumeWrites sampleEnvOk 2 (.inTry 0 0 0)) k2 = []) ∧
      residualOk
        (urlProj (resumeWrites sampleEnvOk 2 (.inTry 0 0 0))
          (pcUrlIndex (.inTry 0 0 0))) = true) :=
  ⟨by decide, rfl, rfl,
    cancel_active_job
      (submitStore [] "job-1" ["https://a.example", "https://b.example"]
        "/tmp/out" 1 "2024-01-01T00:00:00.000Z") "job-1"
      (createdJob "job-1" ["https://a.example", "https://b.example"]
        "/tmp/out" 1 "2024-01-01T00:00:00.000Z")
      sampleEnvOk 2 (.inTry 0 0 0) (by decide) rfl rfl⟩

/-- Counterexample to C3 as stated: after a cancellation that closes the
session while URL 0 is in flight (suspension point `inTry 0`), the routine
still performs a per-URL status write — the catch block records the aborted
operation as a `failed` write for URL 0 — so it is not true that no further
per-URL status writes occur once the forced session close completes. -/
theorem cancel_residual_url_write :
    sessionRegistered (.inTry 0 0 0) = true ∧
    urlProj (resumeWrites sampleEnvOk 2 (.inTry 0 0 0)) 0 = [.failed] := by
  constructor
  · rfl
  · decide

/-- C4: for every jobId unknown to the store, and for every job whose record
has `completed = true`, `cancelJob` returns `false` and leaves the store (and
hence the job record, if any) completely unchanged.  The hypothesis
`(getPdfJob store jobId).all (·.completed) = true` covers exactly the two
cases: job absent, or present with `completed = true`. -/
theorem cancel_inactive_noop (store : Store) (jobId : String)
    (h : ((getPdfJob store jobId).all fun j => j.completed) = true) :
    cancelJob store jobId = (false, store) := by
  cases hj : getPdfJob store jobId with
  | none => exact cancelJob_of_get_none hj
  | some j =>
    rw [hj] at h
    exact cancelJob_of_completed hj (by simpa using h)

/-- Witness for C4: cancelling a job already marked `completed` returns
`false` and leaves the store untouched. -/
theorem cancel_inactive_noop_witness :
    ((getPdfJob
        [("job-2", finalWrite (createdJob "job-2" ["https://a.example"]
          "/tmp/out" 2 "2024-01-01T00:00:00.000Z") 1 0 "/tmp/out")] "job-2").all
      fun j => j.completed) = true ∧
    cancelJob
        [("job-2", finalWrite (createdJob "job-2" ["https://a.example"]
          "/tmp/out" 2 "2024-01-01T00:00:00.000Z") 1 0 "/tmp/out")] "job-2" =
      (false,
        [("job-2", finalWrite (createdJob "job-2" ["https://a.example"]
          "/tmp/out" 2 "2024-01-01T00:00:00.000Z") 1 0 "/tmp/out")]) :=
  ⟨by decide,
    cancel_inactive_noop
      [("job-2", finalWrite (createdJob "job-2" ["https://a.example"]
        "/tmp/out" 2 "2024-01-01T00:00:00.000Z") 1 0 "/tmp/out")] "job-2"
      (by decide)⟩

/-- C5 (amended): at the start of the processing routine, an empty output path
or the known-unusable sentinel `/Downloads/pdfs` is replaced by the default
`./generated-pdfs`; and if creating the effective directory fails, the job
transitions directly to `failed` with `completed = true`, no URL is processed,
and every entry of `urlStatuses` remains `pending`.  (The original claim's
"with the error message attached" is refuted by `mkdir_error_not_attached`:
`updateJobStatus` ignores its error argument and the record stores the message
nowhere.) -/
theorem mkdir_failure_fails_job (store : Store) (jobId : String)
    (urls : List String) (outputPath : String) (id : Nat) (createdAt : String)
    (env : GenEnv) (msg : String) (hmk : env.mkdirResult = some msg) :
    getPdfJob
        (applyWrites jobId (submitStore store jobId urls outputPath id createdAt)
          (genWrites env urls.length)) jobId =
      some (jobStatusWrite (createdJob jobId urls outputPath id createdAt) "failed") ∧
    (jobStatusWrite (createdJob jobId urls outputPath id createdAt)
      "failed").status = "failed" ∧
    (jobStatusWrite (createdJob jobId urls outputPath id createdAt)
      "failed").completed = true ∧
    (jobStatusWrite (createdJob jobId urls outputPath id createdAt)
      "failed").urlStatuses =
      .arr (urls.map fun u => { url := u, status := .pending, error := none }) ∧
    resolveOutputPath "" = "./generated-pdfs" ∧
    resolveOutputPath "/Downloads/pdfs" = "./generated-pdfs" ∧
    (∀ p, p ≠ "" → p ≠ "/Downloads/pdfs" → resolveOutputPath p = p) := by
  have hget0 : getPdfJob (submitStore store jobId urls outputPath id createdAt)
      jobId = some (createdJob jobId urls outputPath id createdAt) :=
    getPdfJob_setJob_same _ _ _
  have hws : genWrites env urls.length =
      [.jobStatus "failed"
        (some ("Failed to create output directory: " ++ msg))] := by
    simp [genWrites, hmk]
  refine ⟨?_, rfl, rfl, rfl, rfl, rfl, ?_⟩
  · rw [hws, applyWrites_cons, applyWrites_nil]
    rw [show applyWrite jobId (submitStore store jobId urls outputPath id createdAt)
        (.jobStatus "failed" (some ("Failed to create output directory: " ++ msg))) =
      setJob (submitStore store jobId urls outputPath id createdAt) jobId
        (jobStatusWrite (createdJob jobId urls outputPath id createdAt) "failed")
      from updateJobStatus_of_get_some "failed"
        (some ("Failed to create output directory: " ++ msg)) hget0]
    exact getPdfJob_setJob_same _ _ _
  · intro p h1 h2
    simp [resolveOutputPath, h1, h2]

/-- Witness for C5 (amended): a one-URL job whose output directory cannot be
created fails immediately with its URL entry still `pending`. -/
theorem mkdir_failure_fails_job_witness :
    sampleEnvFail.mkdirResult = some "EACCES: permission denied" ∧
    (getPdfJob
        (applyWrites "job-3"
          (submitStore [] "job-3" ["https://a.example"] "/root/forbidden" 3
            "2024-01-01T00:00:00.000Z")
          (genWrites sampleEnvFail 1)) "job-3" =
      some (jobStatusWrite
        (createdJob "job-3" ["https://a.example"] "/root/forbidden" 3
          "2024-01-01T00:00:00.000Z") "failed") ∧
    (jobStatusWrite (createdJob "job-3" ["https://a.example"] "/root/forbidden" 3
      "2024-01-01T00:00:00.000Z") "failed").status = "failed" ∧
    (jobStatusWrite (createdJob "job-3" ["https://a.example"] "/root/forbidden" 3
      "2024-01-01T00:00:00.000Z") "failed").completed = true ∧
    (jobStatusWrite (createdJob "job-3" ["https://a.example"] "/root/forbidden" 3
      "2024-01-01T00:00:00.000Z") "failed").urlStatuses =
      .arr (["https://a.example"].map fun u =>
        { url := u, status := .pending, error := none }) ∧
    resolveOutputPath "" = "./generated-pdfs" ∧
    resolveOutputPath "/Downloads/pdfs" = "./generated-pdfs" ∧
    (∀ p, p ≠ "" → p ≠ "/Downloads/pdfs" → resolveOutputPath p = p)) :=
  ⟨rfl,
    mkdir_failure_fails_job [] "job-3" ["https://a.example"] "/root/forbidden" 3
      "2024-01-01T00:00:00.000Z" sampleEnvFail "EACCES: permission denied" rfl⟩

/-- Counterexample to C5 as stated: after a run whose directory creation fails
with `EACCES: permission denied`, the job is `failed` and `completed`, but the
error message is attached nowhere on the record — `updateJobStatus` ignores
its error argument and `PdfJob` has no job-level error slot, so neither the
raw message nor the `Failed to create output directory: …` wrapper the routine
builds appears anywhere in the final record. -/
theorem mkdir_error_not_attached :
    getPdfJob
        (applyWrites "job-3"
          (submitStore [] "job-3" ["https://a.example"] "/root/forbidden" 3
            "2024-01-01T00:00:00.000Z")
          (genWrites sampleEnvFail 1)) "job-3" =
      some (jobStatusWrite
        (createdJob "job-3" ["https://a.example"] "/root/forbidden" 3
          "2024-01-01T00:00:00.000Z") "failed") ∧
    errorAttached
      (jobStatusWrite (createdJob "job-3" ["https://a.example"] "/root/forbidden"
        3 "2024-01-01T00:00:00.000Z") "failed")
      "EACCES: permission denied" = false ∧
    errorAttached
      (jobStatusWrite (createdJob "job-3" ["https://a.example"] "/root/forbidden"
        3 "2024-01-01T00:00:00.000Z") "failed")
      "Failed to create output directory: EACCES: permission denied" = false := by
  refine ⟨?_, by decide, by decide⟩
  decide

/-- C6 (amended): immediately after submit returns, the stored job record has
status `pending`, `completed = false`, `urlStatuses` of length equal to
`urls.length` with every entry `pending` (carrying its input URL, in order) —
but `successCount` and `failCount` are absent (`undefined`), not zero: the
insert payload omits both keys and `createPdfJob` never sets them.  (The
original "both zero" is refuted by `submit_counts_absent`.) -/
theorem submit_initial_record (store : Store) (jobId : String)
    (urls : List String) (outputPath : String) (id : Nat) (createdAt : String) :
    getPdfJob (submitStore store jobId urls outputPath id createdAt) jobId =
      some (createdJob jobId urls outputPath id createdAt) ∧
    (createdJob jobId urls outputPath id createdAt).status = "pending" ∧
    (createdJob jobId urls outputPath id createdAt).completed = false ∧
    (createdJob jobId urls outputPath id createdAt).urlStatuses =
      .arr (urls.map fun u => { url := u, status := .pending, error := none }) ∧
    (urls.map fun u =>
      ({ url := u, status := .pending, error := none } : UrlStatus)).length =
      urls.length ∧
    (createdJob jobId urls outputPath id createdAt).successCount = none ∧
    (createdJob jobId urls outputPath id createdAt).failCount = none :=
  ⟨getPdfJob_setJob_same _ _ _, rfl, rfl, rfl, by simp, rfl, rfl⟩

/-- Counterexample to C6 as stated: immediately after submitting a concrete
one-URL job the stored record satisfies every conjunct of the claim except the
counts — `successCount` and `failCount` are absent (`none`), not `some 0`. -/
theorem submit_counts_absent :
    getPdfJob
        (submitStore [] "job-4" ["https://a.example"] "/tmp/out" 4
          "2024-01-01T00:00:00.000Z") "job-4" =
      some (createdJob "job-4" ["https://a.example"] "/tmp/out" 4
        "2024-01-01T00:00:00.000Z") ∧
    (createdJob "job-4" ["https://a.example"] "/tmp/out" 4
      "2024-01-01T00:00:00.000Z").status = "pending" ∧
    (createdJob "job-4" ["https://a.example"] "/tmp/out" 4
      "2024-01-01T00:00:00.000Z").completed = false ∧
    (createdJob "job-4" ["https://a.example"] "/tmp/out" 4
      "2024-01-01T00:00:00.000Z").successCount = none ∧
    (createdJob "job-4" ["https://a.example"] "/tmp/out" 4
      "2024-01-01T00:00:00.000Z").failCount = none ∧
    ¬ ((createdJob "job-4" ["https://a.example"] "/tmp/out" 4
        "2024-01-01T00:00:00.000Z").successCount = some 0 ∧
       (createdJob "job-4" ["https://a.example"] "/tmp/out" 4
        "2024-01-01T00:00:00.000Z").failCount = some 0) := by
  decide

/-- C7: for every job record reachable by any sequence of the program's
job-record writes (creation, the `processing`/`failed` transitions, the final
completion write, per-URL updates, cancellation), the `completed` flag is true
iff `status` is one of `completed`, `failed`, `cancelled`. -/
theorem completed_iff_terminal {j : PdfJob} (h : JobReachable j) :
    j.completed = true ↔
      (j.status = "completed" ∨ j.status = "failed" ∨ j.status = "cancelled") := by
  induction h with
  | created jobId urls outputPath id createdAt => simp [createdJob]
  | toProcessing _ _ => simp [jobStatusWrite]
  | toFailed _ _ => simp [jobStatusWrite]
  | toCompleted sc fc outputPath _ _ => simp [finalWrite]
  | toCancelled _ _ _ => simp [cancelWriteJob]
  | urlWrite xs' _ ih => exact ih

/-- Witness for C7: the invariant evaluated on a concrete reachable record
(a created job that moved to `processing`). -/
theorem completed_iff_terminal_witness :
    (jobStatusWrite
      (createdJob "job-5" ["https://a.example"] "/tmp/out" 5
        "2024-01-01T00:00:00.000Z") "processing").completed = true ↔
      ((jobStatusWrite
        (createdJob "job-5" ["https://a.example"] "/tmp/out" 5
          "2024-01-01T00:00:00.000Z") "processing").status = "completed" ∨
       (jobStatusWrite
        (createdJob "job-5" ["https://a.example"] "/tmp/out" 5
          "2024-01-01T00:00:00.000Z") "processing").status = "failed" ∨
       (jobStatusWrite
        (createdJob "job-5" ["https://a.example"] "/tmp/out" 5
          "2024-01-01T00:00:00.000Z") "processing").status = "cancelled") :=
  completed_iff_terminal
    (JobReachable.toProcessing
      (JobReachable.created "job-5" ["https://a.example"] "/tmp/out" 5
        "2024-01-01T00:00:00.000Z"))

/-- C8 (amended): for two URLs with the same host processed in the same job,
the derived output filenames are distinct provided the two iterations'
sanitized timestamps differ (with millisecond ISO timestamps and the ≥3s of
fixed waits per URL this holds on a monotonic clock, but nothing in the code
enforces it — `same_timestamp_filename_collision` shows equal clock readings
collide). -/
theorem same_host_distinct_filenames (u1 u2 t1 t2 : String)
    (hd : domainOf u1 = domainOf u2) (ht : sanitizeTs t1 ≠ sanitizeTs t2) :
    pdfFilename u1 t1 ≠ pdfFilename u2 t2 := by
  intro heq
  apply ht
  unfold pdfFilename at heq
  rw [hd] at heq
  have hdata := congrArg String.data heq
  simp only [String.data_append, List.append_assoc] at hdata
  have h1 := List.append_cancel_left hdata
  have h2 := List.append_cancel_left h1
  have h3 := List.append_cancel_right h2
  exact String.ext h3

/-- Witness for C8 (amended): same host, timestamps 3.25s apart, distinct
filenames. -/
theorem same_host_distinct_filenames_witness :
    domainOf "https://www.example.com/a" = domainOf "http://example.com/b" ∧
    sanitizeTs "2024-01-01T00:00:00.000Z" ≠ sanitizeTs "2024-01-01T00:00:03.250Z" ∧
    pdfFilename "https://www.example.com/a" "2024-01-01T00:00:00.000Z" ≠
      pdfFilename "http://example.com/b" "2024-01-01T00:00:03.250Z" :=
  ⟨by decide, by decide,
    same_host_distinct_filenames "https://www.example.com/a" "http://example.com/b"
      "2024-01-01T00:00:00.000Z" "2024-01-01T00:00:03.250Z" (by decide) (by decide)⟩

/-- Counterexample to C8 as stated: two distinct URLs with the same host whose
iterations read the same clock value derive the same output filename — the
code guarantees distinctness only through the timestamp, which it does not
guarantee to differ. -/
theorem same_timestamp_filename_collision :
    "https://www.example.com/a" ≠ "http://example.com/b" ∧
    domainOf "https://www.example.com/a" = domainOf "http://example.com/b" ∧
    pdfFilename "https://www.example.com/a" "2024-01-01T00:00:00.000Z" =
      pdfFilename "http://example.com/b" "2024-01-01T00:00:00.000Z" := by
  decide

/-- C9: `MemStorage.updatePdfJob` has merge semantics: on an unknown jobId it
returns `undefined` and leaves the store unchanged; on a known jobId it stores
and returns the merged record in which exactly the supplied fields overwrite
the old values, every unsupplied field is preserved, and every other job in
the store is untouched. -/
theorem updatePdfJob_merge (store : Store) (jobId : String) (p : PdfJobPatch) :
    (getPdfJob store jobId = none → updatePdfJob store jobId p = (none, store)) ∧
    (∀ j, getPdfJob store jobId = some j →
      updatePdfJob store jobId p =
        (some (applyPatch j p), setJob store jobId (applyPatch j p)) ∧
      getPdfJob (updatePdfJob store jobId p).2 jobId = some (applyPatch j p) ∧
      (∀ k2, k2 ≠ jobId →
        getPdfJob (updatePdfJob store jobId p).2 k2 = getPdfJob store k2) ∧
      (applyPatch j p).id = p.id.getD j.id ∧
      (applyPatch j p).jobId = p.jobId.getD j.jobId ∧
      (applyPatch j p).urls = p.urls.getD j.urls ∧
      (applyPatch j p).outputPath = p.outputPath.getD j.outputPath ∧
      (applyPatch j p).status = p.status.getD j.status ∧
      (applyPatch j p).completed = p.completed.getD j.completed ∧
      (applyPatch j p).urlStatuses = p.urlStatuses.getD j.urlStatuses ∧
      (p.successCount = none → (applyPatch j p).successCount = j.successCount) ∧
      (∀ v, p.successCount = some v → (applyPatch j p).successCount = some v) ∧
      (p.failCount = none → (applyPatch j p).failCount = j.failCount) ∧
      (∀ v, p.failCount = some v → (applyPatch j p).failCount = some v) ∧
      (applyPatch j p).createdAt = p.createdAt.getD j.createdAt) := by
  constructor
  · intro h
    exact updatePdfJob_of_get_none p h
  · intro j h
    refine ⟨updatePdfJob_of_get_some p h, ?_, ?_, rfl, rfl, rfl, rfl, rfl, rfl,
      rfl, ?_, ?_, ?_, ?_, rfl⟩
    · rw [updatePdfJob_of_get_some p h]
      exact getPdfJob_setJob_same _ _ _
    · intro k2 hk2
      rw [updatePdfJob_of_get_some p h]
      exact getPdfJob_setJob_ne _ _ _ _ hk2
    · intro hn; simp [applyPatch, hn]
    · intro v hv; simp [applyPatch, hv]
    · intro hn; simp [applyPatch, hn]
    · intro v hv; simp [applyPatch, hv]

/-- Witness for C9: merging a `{status, completed}` patch into a stored job. -/
theorem updatePdfJob_merge_witness :
    getPdfJob [("job-6", createdJob "job-6" ["https://a.example"] "/tmp/out" 6
        "2024-01-01T00:00:00.000Z")] "job-6" =
      some (createdJob "job-6" ["https://a.example"] "/tmp/out" 6
        "2024-01-01T00:00:00.000Z") ∧
    updatePdfJob
        [("job-6", createdJob "job-6" ["https://a.example"] "/tmp/out" 6
          "2024-01-01T00:00:00.000Z")] "job-6"
        { status := some "processing", completed := some false } =
      (some (applyPatch
          (createdJob "job-6" ["https://a.example"] "/tmp/out" 6
            "2024-01-01T00:00:00.000Z")
          { status := some "processing", completed := some false }),
        setJob
          [("job-6", createdJob "job-6" ["https://a.example"] "/tmp/out" 6
            "2024-01-01T00:00:00.000Z")] "job-6"
          (applyPatch
            (createdJob "job-6" ["https://a.example"] "/tmp/out" 6
              "2024-01-01T00:00:00.000Z")
            { status := some "processing", completed := some false })) :=
  ⟨by decide,
    ((updatePdfJob_merge
        [("job-6", createdJob "job-6" ["https://a.example"] "/tmp/out" 6
          "2024-01-01T00:00:00.000Z")] "job-6"
        { status := some "processing", completed := some false }).2
      (createdJob "job-6" ["https://a.example"] "/tmp/out" 6
        "2024-01-01T00:00:00.000Z") (by decide)).1⟩

theorem getD_set_ne {α : Type} (xs : List α) (n k2 : Nat) (a d : α)
    (h : k2 ≠ n) : (xs.set n a).getD k2 d = xs.getD k2 d := by
  induction xs generalizing n k2 with
  | nil => rfl
  | cons x t ih =>
    cases n with
    | zero =>
      cases k2 with
      | zero => exact absurd rfl h
      | succ m => simp [List.set]
    | succ n2 =>
      cases k2 with
      | zero => simp [List.set]
      | succ m =>
        simp only [List.set, List.getD_cons_succ]
        exact ih n2 m (fun hh => h (by rw [hh]))

theorem getD_set_self {α : Type} (xs : List α) (n : Nat) (a d : α)
    (h : n < xs.length) : (xs.set n a).getD n d = a := by
  induction xs generalizing n with
  | nil => simp at h
  | cons x t ih =>
    cases n with
    | zero => simp [List.set]
    | succ n2 =>
      simp only [List.set, List.getD_cons_succ]
      exact ih n2 (by simpa using h)

/-- C10: the per-URL status update helper is a safe no-op when the job is
unknown, when the stored `urlStatuses` is not an array, or when the index is
negative or not below the array length (it writes nothing); and when it does
write, only entry `urlIndex` changes — its URL is preserved while `status` and
`error` are replaced — and every other entry, every other field of the job
record, and every other job in the store are unchanged. -/
theorem updateUrlStatus_safe (store : Store) (jobId : String) (i : Int)
    (s : UStatus) (e : Option String) :
    (getPdfJob store jobId = none → updateUrlStatus store jobId i s e = store) ∧
    (∀ j, getPdfJob store jobId = some j → j.urlStatuses = .notArr →
      updateUrlStatus store jobId i s e = store) ∧
    (∀ j xs, getPdfJob store jobId = some j → j.urlStatuses = .arr xs →
      (i < 0 ∨ (xs.length : Int) ≤ i) → updateUrlStatus store jobId i s e = store) ∧
    (∀ j xs, getPdfJob store jobId = some j → j.urlStatuses = .arr xs →
      0 ≤ i → i < (xs.length : Int) →
      ∃ j2,
        updateUrlStatus store jobId i s e = setJob store jobId j2 ∧
        getPdfJob (updateUrlStatus store jobId i s e) jobId = some j2 ∧
        (∀ k2, k2 ≠ jobId →
          getPdfJob (updateUrlStatus store jobId i s e) k2 = getPdfJob store k2) ∧
        j2.id = j.id ∧ j2.jobId = j.jobId ∧ j2.urls = j.urls ∧
        j2.outputPath = j.outputPath ∧ j2.status = j.status ∧
        j2.completed = j.completed ∧ j2.successCount = j.successCount ∧
        j2.failCount = j.failCount ∧ j2.createdAt = j.createdAt ∧
        (∃ xs2, j2.urlStatuses = .arr xs2 ∧ xs2.length = xs.length ∧
          (∀ k2, k2 ≠ i.toNat →
            xs2.getD k2 { url := "", status := .pending, error := none } =
              xs.getD k2 { url := "", status := .pending, error := none }) ∧
          (xs2.getD i.toNat { url := "", status := .pending, error := none }).url =
            (xs.getD i.toNat { url := "", status := .pending, error := none }).url ∧
          (xs2.getD i.toNat { url := "", status := .pending, error := none }).status = s ∧
          (xs2.getD i.toNat { url := "", status := .pending, error := none }).error = e)) := by
  refine ⟨?_, ?_, ?_, ?_⟩
  · intro h
    exact updateUrlStatus_of_get_none i s e h
  · intro j h hx
    exact updateUrlStatus_of_notArr i s e h hx
  · intro j xs h hx hoob
    exact updateUrlStatus_of_oob i s e h hx hoob
  · intro j xs h hx h0 hlt
    have hcond : (0 : Int) ≤ i ∧ i < (xs.length : Int) := ⟨h0, hlt⟩
    have hitn : i.toNat < xs.length := by omega
    set oldE : UrlStatus :=
      xs.getD i.toNat { url := "", status := .pending, error := none } with holdE
    set newE : UrlStatus := { oldE with status := s, error := e } with hnewE
    set j2 : PdfJob := { j with urlStatuses := .arr (xs.set i.toNat newE) } with hj2
    have hap : applyPatch j (fullPatch j2) = j2 :=
      applyPatch_fullPatch _ _ (Or.inl rfl) (Or.inl rfl)
    have hupd : updateUrlStatus store jobId i s e = setJob store jobId j2 := by
      simp only [updateUrlStatus, h, hx, hcond, and_self, if_true,
        updatePdfJob_of_get_some _ h]
      rw [show applyPatch j (fullPatch
        { j with urlStatuses := .arr (xs.set i.toNat newE) }) = j2 from hap]
    refine ⟨j2, hupd, ?_, ?_, rfl, rfl, rfl, rfl, rfl, rfl, rfl, rfl, rfl,
      xs.set i.toNat newE, rfl, List.length_set xs i.toNat newE, ?_, ?_, ?_, ?_⟩
    · rw [hupd]
      exact getPdfJob_setJob_same _ _ _
    · intro k2 hk2
      rw [hupd]
      exact getPdfJob_setJob_ne _ _ _ _ hk2
    · intro k2 hk2
      exact getD_set_ne xs i.toNat k2 newE _ hk2
    · rw [getD_set_self xs i.toNat newE _ hitn]
    · rw [getD_set_self xs i.toNat newE _ hitn]
    · rw [getD_set_self xs i.toNat newE _ hitn]

/-- Witness for C10: marking URL 1 of a stored two-URL job `processing`. -/
theorem updateUrlStatus_safe_witness :
    getPdfJob
        [("job-7", createdJob "job-7" ["https://a.example", "https://b.example"]
          "/tmp/out" 7 "2024-01-01T00:00:00.000Z")] "job-7" =
      some (createdJob "job-7" ["https://a.example", "https://b.example"]
        "/tmp/out" 7 "2024-01-01T00:00:00.000Z") ∧
    (createdJob "job-7" ["https://a.example", "https://b.example"] "/tmp/out" 7
      "2024-01-01T00:00:00.000Z").urlStatuses =
      .arr [{ url := "https://a.example", status := .pending, error := none },
        { url := "https://b.example", status := .pending, error := none }] ∧
    (0 : Int) ≤ 1 ∧ (1 : Int) < (2 : Int) ∧
    (∃ j2,
      updateUrlStatus
          [("job-7", createdJob "job-7" ["https://a.example", "https://b.example"]
            "/tmp/out" 7 "2024-01-01T00:00:00.000Z")] "job-7" 1 .processing none =
        setJob
          [("job-7", createdJob "job-7" ["https://a.example", "https://b.example"]
            "/tmp/out" 7 "2024-01-01T00:00:00.000Z")] "job-7" j2 ∧
      getPdfJob
          (updateUrlStatus
            [("job-7", createdJob "job-7" ["https://a.example", "https://b.example"]
              "/tmp/out" 7 "2024-01-01T00:00:00.000Z")] "job-7" 1 .processing none)
          "job-7" = some j2 ∧
      (∀ k2, k2 ≠ "job-7" →
        getPdfJob
            (updateUrlStatus
              [("job-7", createdJob "job-7" ["https://a.example", "https://b.example"]
                "/tmp/out" 7 "2024-01-01T00:00:00.000Z")] "job-7" 1 .processing none)
            k2 =
          getPdfJob
            [("job-7", createdJob "job-7" ["https://a.example", "https://b.example"]
              "/tmp/out" 7 "2024-01-01T00:00:00.000Z")] k2) ∧
      j2.id = (createdJob "job-7" ["https://a.example", "https://b.example"]
        "/tmp/out" 7 "2024-01-01T00:00:00.000Z").id ∧
      j2.jobId = (createdJob "job-7" ["https://a.example", "https://b.example"]
        "/tmp/out" 7 "2024-01-01T00:00:00.000Z").jobId ∧
      j2.urls = (createdJob "job-7" ["https://a.example", "https://b.example"]
        "/tmp/out" 7 "2024-01-01T00:00:00.000Z").urls ∧
      j2.outputPath = (createdJob "job-7" ["https://a.example", "https://b.example"]
        "/tmp/out" 7 "2024-01-01T00:00:00.000Z").outputPath ∧
      j2.status = (createdJob "job-7" ["https://a.example", "https://b.example"]
        "/tmp/out" 7 "2024-01-01T00:00:00.000Z").status ∧
      j2.completed = (createdJob "job-7" ["https://a.example", "https://b.example"]
        "/tmp/out" 7 "2024-01-01T00:00:00.000Z").completed ∧
      j2.successCount = (createdJob "job-7" ["https://a.example", "https://b.example"]
        "/tmp/out" 7 "2024-01-01T00:00:00.000Z").successCount ∧
      j2.failCount = (createdJob "job-7" ["https://a.example", "https://b.example"]
        "/tmp/out" 7 "2024-01-01T00:00:00.000Z").failCount ∧
      j2.createdAt = (createdJob "job-7" ["https://a.example", "https://b.example"]
        "/tmp/out" 7 "2024-01-01T00:00:00.000Z").createdAt ∧
      (∃ xs2, j2.urlStatuses = .arr xs2 ∧
        xs2.length = ([{ url := "https://a.example", status := .pending, error := none },
          { url := "https://b.example", status := .pending, error := none }] :
            List UrlStatus).length ∧
        (∀ k2, k2 ≠ (1 : Int).toNat →
          xs2.getD k2 { url := "", status := .pending, error := none } =
            ([{ url := "https://a.example", status := .pending, error := none },
              { url := "https://b.example", status := .pending, error := none }] :
                List UrlStatus).getD k2
              { url := "", status := .pending, error := none }) ∧
        (xs2.getD (1 : Int).toNat
          { url := "", status := .pending, error := none }).url =
          (([{ url := "https://a.example", status := .pending, error := none },
            { url := "https://b.example", status := .pending, error := none }] :
              List UrlStatus).getD (1 : Int).toNat
            { url := "", status := .pending, error := none }).url ∧
        (xs2.getD (1 : Int).toNat
          { url := "", status := .pending, error := none }).status = .processing ∧
        (xs2.getD (1 : Int).toNat
          { url := "", status := .pending, error := none }).error = none)) :=
  ⟨by decide, by decide, by decide, by decide,
    (updateUrlStatus_safe
        [("job-7", createdJob "job-7" ["https://a.example", "https://b.example"]
          "/tmp/out" 7 "2024-01-01T00:00:00.000Z")] "job-7" 1 .processing
        none).2.2.2
      (createdJob "job-7" ["https://a.example", "https://b.example"] "/tmp/out" 7
        "2024-01-01T00:00:00.000Z")
      [{ url := "https://a.example", status := .pending, error := none },
        { url := "https://b.example", status := .pending, error := none }]
      (by decide) (by decide) (by decide) (by decide)⟩

end PdfSnap
